import Mathlib

/-!
Verification development for the remotefs-rs repository: a shallow embedding
of the path-resolution and entry-translation layer (Rust paths modelled as
strings over their character lists, Rust components as an inductive type),
the S3 and SCP backend drivers (remote endpoints modelled as oracles), and
the SCP ls-line regex parser (a small backtracking matcher).
-/

set_option maxRecDepth 4096

deriving instance DecidableEq for Except

namespace Rfs

/-- Unix Path::is_absolute (equivalently has_root): the string starts with a slash. -/
def isAbsolute (s : String) : Bool := s.data.head? = some '/'

/-- Rust str::ends_with with a char pattern. -/
def endsWithChar (c : Char) (s : String) : Bool := s.data.getLast? = some c

/-- Rust std::path::Component for Unix paths. -/
inductive Component where
  | rootDir
  | curDir
  | parentDir
  | normal (s : String)
deriving DecidableEq, Repr

/-- Rust str::split on a separator character, over the character list: keeps
empty segments, so splitting the empty string yields one empty segment. -/
def splitChars (sep : Char) : List Char → List (List Char)
  | [] => [[]]
  | c :: rest =>
    match splitChars sep rest with
    | [] => [[c]]
    | h :: t => if c = sep then [] :: h :: t else (c :: h) :: t

/-- A non-leading path segment normalized as in std::path::Components:
empty segments and "." disappear, ".." becomes ParentDir. -/
def segToComp (seg : List Char) : Option Component :=
  if seg = [] then none
  else if seg = ['.'] then none
  else if seg = ['.', '.'] then some .parentDir
  else some (.normal (String.mk seg))

/-- Rust Path::components for Unix paths, with std's documented normalization:
a leading slash gives RootDir, repeated separators and interior "." segments
are dropped, and a "." is kept only at the start of a relative path. -/
def components (s : String) : List Component :=
  let segs := splitChars '/' s.data
  if isAbsolute s then
    Component.rootDir :: segs.filterMap segToComp
  else
    match segs with
    | [] => []
    | seg :: rest =>
      if seg = ['.'] then Component.curDir :: rest.filterMap segToComp
      else (seg :: rest).filterMap segToComp

/-- Rust Path equality (PartialEq for Path compares the component sequences). -/
def pathEq (a b : String) : Bool := components a = components b

/-- Rust PathBuf::push on Unix: an absolute path replaces the buffer, otherwise
a separator is inserted when the buffer is non-empty and lacks a trailing one. -/
def pushPath (base p : String) : String :=
  if isAbsolute p then p
  else if base = "" || endsWithChar '/' base then base ++ p
  else base ++ "/" ++ p

/-- The string a component contributes when re-collected into a PathBuf. -/
def Component.str : Component → String
  | .rootDir => "/"
  | .curDir => "."
  | .parentDir => ".."
  | .normal s => s

/-- Collecting components back into a PathBuf by successive pushes. -/
def joinComps (cs : List Component) : String :=
  cs.foldl (fun acc c => pushPath acc c.str) ""

/-- utils/path.rs absolutize: absolute targets pass through, relative targets
are pushed onto the working directory. No lexical normalization happens. -/
def absolutize (wrkdir target : String) : String :=
  if isAbsolute target then target else pushPath wrkdir target

/-- The component loop of utils/path.rs diff_paths; the boolean tracks whether
the output component list built so far is still empty (the source's
comps.is_empty() guard). -/
def diffLoop : List Component → List Component → Bool → Option (List Component)
  | [], [], _ => some []
  | a :: ra, [], _ => some (a :: ra)
  | [], _ :: rb, _ => (diffLoop [] rb false).map (fun r => Component.parentDir :: r)
  | a :: ra, b :: rb, e =>
    if e ∧ a = b then diffLoop ra rb e
    else if b = Component.curDir then (diffLoop ra rb false).map (fun r => a :: r)
    else if b = Component.parentDir then none
    else some (Component.parentDir :: (rb.map (fun _ => Component.parentDir) ++ a :: ra))

/-- utils/path.rs diff_paths: the relative remainder of path with base removed. -/
def diff_paths (path base : String) : Option String :=
  if (isAbsolute path) ≠ (isAbsolute base) then
    if isAbsolute path then some path else none
  else
    (diffLoop (components path) (components base) true).map joinComps

-- fs/file/permissions.rs

/-- Permissions of one POSIX user class (fs/file/permissions.rs UnixPexClass). -/
structure UnixPexClass where
  read : Bool
  write : Bool
  execute : Bool
deriving DecidableEq, Repr

/-- From u8 impl: each of the three low bits gates one permission flag. -/
def UnixPexClass.fromBits (bits : Nat) : UnixPexClass :=
  { read := ((bits >>> 2) &&& 1) != 0
    write := ((bits >>> 1) &&& 1) != 0
    execute := (bits &&& 1) != 0 }

/-- From UnixPexClass for u32 impl: the class encoded as a 3-bit digit. -/
def UnixPexClass.toU32 (p : UnixPexClass) : Nat :=
  ((cond p.read 1 0) <<< 2) + ((cond p.write 1 0) <<< 1) + cond p.execute 1 0

/-- POSIX permissions for user, group and others (fs/file/permissions.rs UnixPex). -/
structure UnixPex where
  user : UnixPexClass
  group : UnixPexClass
  others : UnixPexClass
deriving DecidableEq, Repr

/-- From u32 impl: split a POSIX mode integer into the three 3-bit classes. -/
def UnixPex.fromU32 (x : Nat) : UnixPex :=
  { user := .fromBits ((x >>> 6) &&& 0x7)
    group := .fromBits ((x >>> 3) &&& 0x7)
    others := .fromBits (x &&& 0x7) }

/-- From UnixPex for u32 impl: reassemble the mode integer. -/
def UnixPex.toU32 (p : UnixPex) : Nat :=
  (p.user.toU32 <<< 6) + (p.group.toU32 <<< 3) + p.others.toU32

-- fs/errors.rs

/-- Error kinds of fs/errors.rs RemoteErrorType (the optional free-text
diagnostic carried next to the kind is not modelled; every claim concerns
only the kind). -/
inductive RemoteErrorType where
  | AlreadyConnected
  | AuthenticationFailed
  | BadAddress
  | ConnectionError
  | SslError
  | StatFailed
  | BadFile
  | DirectoryAlreadyExists
  | DirectoryNotEmpty
  | FileCreateDenied
  | CouldNotOpenFile
  | CouldNotRemoveFile
  | IoError
  | NoSuchFileOrDirectory
  | PexError
  | ProtocolError
  | NotConnected
  | UnsupportedFeature
deriving DecidableEq, Repr

/-- Welcome message returned by connect (banner only). -/
structure Welcome where
  banner : Option String := none
deriving DecidableEq, Repr

-- client/aws_s3/object.rs

/-- S3Object::object_name: the last token of the key when non-empty,
otherwise the token before it. -/
def object_name (key : String) : String :=
  let tokens := splitChars '/' key.data
  let count := tokens.length
  let demiLast : String :=
    if count > 1 then String.mk ((tokens.get? (count - 2)).getD []) else ""
  match tokens.getLast? with
  | some last => if last ≠ [] then String.mk last else demiLast
  | none => demiLast

/-- AwsS3Fs::is_direct_child: the key must be the parent followed by its own
object name, with or without a trailing slash. -/
def is_direct_child (key parent : String) : Bool :=
  key == parent ++ object_name key || key == parent ++ object_name key ++ "/"

/-- AwsS3Fs::fmt_path: root becomes the empty key, absolute paths lose the
leading slash via diff_paths, and for directories exactly the final-slash
check appends one slash when missing. -/
def fmt_path (p : String) (is_dir : Bool) : String :=
  if pathEq p "/" then ""
  else
    let q := if isAbsolute p then (diff_paths p "/").getD "" else p
    if is_dir then (if endsWithChar '/' q then q else q ++ "/") else q

/-- AwsS3Fs::resolve: absolutize against the working directory, then strip
the root. -/
def resolve (wrkdir p : String) : String :=
  ((diff_paths (absolutize wrkdir p) "/").getD "")

/-- One remote S3 object as reported by the external s3 library's list. -/
structure RemoteObject where
  key : String
  size : Nat
deriving DecidableEq, Repr

/-- External s3 library boundary: the bucket is the collection of remote
objects; list returns those whose key starts with the requested prefix,
delete_object drops an exactly matching key and put_object appends; all three
are modelled as succeeding at the network level. -/
structure Bucket where
  objects : List RemoteObject
deriving DecidableEq, Repr

/-- S3 list-objects with a key prefix. -/
def Bucket.list (b : Bucket) (prefx : String) : List RemoteObject :=
  b.objects.filter (fun o => prefx.data.isPrefixOf o.key.data)

/-- S3 delete-object of one exact key. -/
def Bucket.delete_object (b : Bucket) (key : String) : Bucket :=
  ⟨b.objects.filter (fun o => o.key ≠ key)⟩

/-- S3 put-object of one key. -/
def Bucket.put_object (b : Bucket) (key : String) (size : Nat) : Bucket :=
  ⟨b.objects ++ [⟨key, size⟩]⟩

/-- client/aws_s3/object.rs S3Object (the last_modified timestamp is parsed
by the external chrono library and inspected by no claim, so it is elided). -/
structure S3Object where
  name : String
  path : String
  size : Nat
  is_dir : Bool
deriving DecidableEq, Repr

/-- From Object impl for S3Object: trailing slash decides is_dir, the path is
the key absolutized at root, the name comes from object_name. -/
def S3Object.fromObj (o : RemoteObject) : S3Object :=
  { name := object_name o.key
    path := absolutize "/" o.key
    size := o.size
    is_dir := endsWithChar '/' o.key }

-- client/aws_s3/mod.rs

/-- client/aws_s3/mod.rs AwsS3Fs driver state. -/
structure AwsS3Fs where
  bucket : Option Bucket
  wrkdir : String
  bucket_name : String
  region : String
  profile : Option String := none
  access_key : Option String := none
  secret_key : Option String := none
  security_token : Option String := none
  session_token : Option String := none
deriving DecidableEq, Repr

/-- AwsS3Fs::new. -/
def AwsS3Fs.new (bucket region : String) : AwsS3Fs :=
  { bucket := none, wrkdir := "/", bucket_name := bucket, region := region }

/-- AwsS3Fs::is_connected. -/
def AwsS3Fs.is_connected (s : AwsS3Fs) : Bool := s.bucket.isSome

/-- AwsS3Fs::check_connection. -/
def AwsS3Fs.check_connection (s : AwsS3Fs) : Except RemoteErrorType Unit :=
  if s.is_connected then .ok () else .error .NotConnected

/-- AwsS3Fs::query_objects over the unwrapped bucket: list at the key, filter
to direct children when requested, convert to S3Object (the network-error
branch of the external list is not modelled). -/
def AwsS3Fs.query_objects (b : Bucket) (key : String)
    (only_direct_children : Bool) : List S3Object :=
  ((b.list key).filter
    (fun o => if only_direct_children then is_direct_child o.key key else true)).map
    S3Object.fromObj

/-- AwsS3Fs::stat_object: query at the file-form key and find the object whose
absolutized path equals the absolutized input (Path equality, so a trailing
slash on the found key is ignored). -/
def AwsS3Fs.stat_object (b : Bucket) (p : String) : Except RemoteErrorType S3Object :=
  let key := fmt_path p false
  let objects := AwsS3Fs.query_objects b key false
  let absol := absolutize "/" p
  match objects.find? (fun x => pathEq x.path absol) with
  | some obj => .ok obj
  | none => .error .NoSuchFileOrDirectory

/-- AwsS3Fs::list_objects. -/
def AwsS3Fs.list_objects (b : Bucket) (p : String) (list_dir : Bool) : List S3Object :=
  AwsS3Fs.query_objects b (fmt_path p list_dir) true

/-- AwsS3Fs::connect: credential and region loading belong to the external
boundary and are assumed well-formed here; connecting installs the bucket
handle whose contents are the remote objects. -/
def AwsS3Fs.connect (s : AwsS3Fs) (remote : Bucket) :
    Except RemoteErrorType Welcome × AwsS3Fs :=
  (.ok {}, { s with bucket := some remote })

/-- AwsS3Fs::disconnect. -/
def AwsS3Fs.disconnect (s : AwsS3Fs) : Except RemoteErrorType Unit × AwsS3Fs :=
  match s.bucket with
  | some _ => (.ok (), { s with bucket := none })
  | none => (.error .NotConnected, s)

/-- AwsS3Fs::pwd. -/
def AwsS3Fs.pwd (s : AwsS3Fs) : Except RemoteErrorType String × AwsS3Fs :=
  match s.bucket with
  | none => (.error .NotConnected, s)
  | some _ => (.ok s.wrkdir, s)

/-- AwsS3Fs::change_dir: entering root always succeeds; otherwise the
directory-form key must stat. -/
def AwsS3Fs.change_dir (s : AwsS3Fs) (dir : String) :
    Except RemoteErrorType String × AwsS3Fs :=
  match s.bucket with
  | none => (.error .NotConnected, s)
  | some b =>
    if pathEq dir "/" then (.ok dir, { s with wrkdir := dir })
    else
      let dir_p := resolve s.wrkdir dir
      let dir_s := fmt_path dir_p true
      match AwsS3Fs.stat_object b dir_s with
      | .ok _ => (.ok (absolutize "/" dir_p), { s with wrkdir := absolutize "/" dir_p })
      | .error _ => (.error .NoSuchFileOrDirectory, s)

/-- AwsS3Fs::list_dir (the Entry conversion is a pure reshaping inspected by
no claim; the S3Object list is returned). -/
def AwsS3Fs.list_dir (s : AwsS3Fs) (path : String) :
    Except RemoteErrorType (List S3Object) × AwsS3Fs :=
  match s.bucket with
  | none => (.error .NotConnected, s)
  | some b => (.ok (AwsS3Fs.list_objects b path true), s)

/-- AwsS3Fs::stat: resolve, stat as file, retry in directory form. -/
def AwsS3Fs.stat (s : AwsS3Fs) (path : String) :
    Except RemoteErrorType S3Object × AwsS3Fs :=
  match s.bucket with
  | none => (.error .NotConnected, s)
  | some b =>
    let path' := resolve s.wrkdir path
    match AwsS3Fs.stat_object b path' with
    | .ok obj => (.ok obj, s)
    | .error _ => (AwsS3Fs.stat_object b (fmt_path path' true), s)

/-- AwsS3Fs::setstat. -/
def AwsS3Fs.setstat (s : AwsS3Fs) (_path : String) :
    Except RemoteErrorType Unit × AwsS3Fs :=
  (.error .UnsupportedFeature, s)

/-- AwsS3Fs::exists via stat. -/
def AwsS3Fs.exists (s : AwsS3Fs) (path : String) :
    Except RemoteErrorType Bool × AwsS3Fs :=
  match s.stat path with
  | (.ok _, s') => (.ok true, s')
  | (.error .NoSuchFileOrDirectory, s') => (.ok false, s')
  | (.error e, s') => (.error e, s')

/-- AwsS3Fs::remove_file: deletes the key formatted in directory form (the
is_dir flag passed to fmt_path is true in the source). -/
def AwsS3Fs.remove_file (s : AwsS3Fs) (path : String) :
    Except RemoteErrorType Unit × AwsS3Fs :=
  match s.bucket with
  | none => (.error .NotConnected, s)
  | some b =>
    let key := fmt_path (resolve s.wrkdir path) true
    (.ok (), { s with bucket := some (b.delete_object key) })

/-- AwsS3Fs::remove_dir: existence check, then delete of the directory-form
key. -/
def AwsS3Fs.remove_dir (s : AwsS3Fs) (path : String) :
    Except RemoteErrorType Unit × AwsS3Fs :=
  match s.bucket with
  | none => (.error .NotConnected, s)
  | some b =>
    let ex := match (s.exists path).1 with
      | .ok v => v
      | .error _ => false
    if !ex then (.error .NoSuchFileOrDirectory, s)
    else
      let key := fmt_path (resolve s.wrkdir path) true
      (.ok (), { s with bucket := some (b.delete_object key) })

/-- AwsS3Fs::remove_dir_all override: try remove_dir, fall back to
remove_file; no recursion over directory contents. -/
def AwsS3Fs.remove_dir_all (s : AwsS3Fs) (path : String) :
    Except RemoteErrorType Unit × AwsS3Fs :=
  match s.remove_dir path with
  | (.ok _, s') => (.ok (), s')
  | (.error _, s') => s'.remove_file path

/-- AwsS3Fs::create_dir: fails when the directory-form key already stats. -/
def AwsS3Fs.create_dir (s : AwsS3Fs) (path : String) (_mode : UnixPex) :
    Except RemoteErrorType Unit × AwsS3Fs :=
  match s.bucket with
  | none => (.error .NotConnected, s)
  | some b =>
    let dir := fmt_path (resolve s.wrkdir path) true
    match AwsS3Fs.stat_object b dir with
    | .ok _ => (.error .DirectoryAlreadyExists, s)
    | .error _ => (.ok (), { s with bucket := some (b.put_object dir 0) })

/-- AwsS3Fs::symlink. -/
def AwsS3Fs.symlink (s : AwsS3Fs) (_path _target : String) :
    Except RemoteErrorType Unit × AwsS3Fs :=
  (.error .UnsupportedFeature, s)

/-- AwsS3Fs::copy. -/
def AwsS3Fs.copy (s : AwsS3Fs) (_src _dest : String) :
    Except RemoteErrorType Unit × AwsS3Fs :=
  (.error .UnsupportedFeature, s)

/-- AwsS3Fs::mov. -/
def AwsS3Fs.mov (s : AwsS3Fs) (_src _dest : String) :
    Except RemoteErrorType Unit × AwsS3Fs :=
  (.error .UnsupportedFeature, s)

/-- AwsS3Fs::exec. -/
def AwsS3Fs.exec (s : AwsS3Fs) (_cmd : String) :
    Except RemoteErrorType (Nat × String) × AwsS3Fs :=
  (.error .UnsupportedFeature, s)

/-- AwsS3Fs::append. -/
def AwsS3Fs.append (s : AwsS3Fs) (_path : String) :
    Except RemoteErrorType Unit × AwsS3Fs :=
  (.error .UnsupportedFeature, s)

/-- AwsS3Fs::create. -/
def AwsS3Fs.create (s : AwsS3Fs) (_path : String) :
    Except RemoteErrorType Unit × AwsS3Fs :=
  (.error .UnsupportedFeature, s)

/-- AwsS3Fs::open. -/
def AwsS3Fs.open (s : AwsS3Fs) (_path : String) :
    Except RemoteErrorType Unit × AwsS3Fs :=
  (.error .UnsupportedFeature, s)

/-- AwsS3Fs::create_file: put at the file-form key; the streamed byte count
is the size argument. -/
def AwsS3Fs.create_file (s : AwsS3Fs) (path : String) (size : Nat) :
    Except RemoteErrorType Unit × AwsS3Fs :=
  match s.bucket with
  | none => (.error .NotConnected, s)
  | some b =>
    let key := fmt_path (resolve s.wrkdir path) false
    (.ok (), { s with bucket := some (b.put_object key size) })

/-- AwsS3Fs::open_file: connection and existence checks, then a get of the
file-form key (the data transfer itself is the external boundary). -/
def AwsS3Fs.open_file (s : AwsS3Fs) (src : String) :
    Except RemoteErrorType Unit × AwsS3Fs :=
  match s.bucket with
  | none => (.error .NotConnected, s)
  | some _ =>
    let ex := match (s.exists src).1 with
      | .ok v => v
      | .error _ => false
    if !ex then (.error .NoSuchFileOrDirectory, s)
    else (.ok (), s)

-- client/ssh/scp.rs: entry model and helpers

/-- SystemTime as the drivers observe it: the Unix epoch, or the instant the
external chrono library builds from the parsed calendar fields (seconds are
always zero in the reachable values). The conversion from fields to seconds
since the epoch stays inside chrono and std, so the instant is kept as its
defining fields; the tuple 1970-01-01 00:00 denotes the same point in time
as epoch, which no claim distinguishes. -/
inductive STime where
  | epoch
  | instant (year month day hour minute : Nat)
deriving DecidableEq, Repr

/-- English month names with their numbers; the chrono %b specifier accepts
the three-letter abbreviation or the full name, case-insensitively. -/
def chronoMonths : List (List Char × Nat) :=
  [("january".data, 1), ("february".data, 2), ("march".data, 3),
   ("april".data, 4), ("may".data, 5), ("june".data, 6),
   ("july".data, 7), ("august".data, 8), ("september".data, 9),
   ("october".data, 10), ("november".data, 11), ("december".data, 12)]

/-- Case-insensitive character equality, as chrono matches month names. -/
def lcEq (a b : Char) : Bool := a.toLower = b.toLower

/-- Does the pattern occur case-insensitively at the head of the input? -/
def lcStarts : List Char → List Char → Bool
  | [], _ => true
  | _ :: _, [] => false
  | p :: ps, c :: cs => lcEq p c && lcStarts ps cs

/-- Consume the longest case-insensitive continuation of the pattern from the
input, returning the remaining input (after matching an abbreviated month
name, chrono extends the match along the full name as far as the input
agrees). -/
def eatLongTail : List Char → List Char → List Char
  | p :: ps, c :: cs => if lcEq p c then eatLongTail ps cs else c :: cs
  | _, cs => cs

/-- chrono %b month matching: the first month whose three-letter abbreviation
matches, the match then extended along the full name. -/
def matchMonth (input : List Char) : Option (Nat × List Char) :=
  chronoMonths.findSome? fun mn =>
    if lcStarts (mn.1.take 3) input then
      some (mn.2, eatLongTail (mn.1.drop 3) (input.drop 3))
    else none

/-- chrono numeric field scanning: between one and w leading digits. -/
def readNum (w : Nat) (input : List Char) : Option (Nat × List Char) :=
  let ds := (input.take w).takeWhile Char.isDigit
  if ds.isEmpty then none
  else some (ds.foldl (fun a c => a * 10 + (c.toNat - 48)) 0,
    input.drop ds.length)

/-- The calendar fields a chrono parse collects. -/
structure ChronoFields where
  year : Option Nat := none
  month : Option Nat := none
  day : Option Nat := none
  hour : Option Nat := none
  minute : Option Nat := none
deriving DecidableEq, Repr

/-- The chrono format-string scanner, covering the specifiers the repository
hands to the parsers (%b, %d, %H, %M, %Y): whitespace in the format matches
any amount of input whitespace, any other literal matches itself, any
specifier outside the covered set fails, and the whole input must be
consumed (chrono's TOO LONG error otherwise). -/
def chronoScan : List Char → List Char → ChronoFields → Except Unit ChronoFields
  | [], input, f => if input.isEmpty then .ok f else .error ()
  | '%' :: 'b' :: fr, input, f =>
    (match matchMonth input with
    | some (m, rest) => chronoScan fr rest { f with month := some m }
    | none => .error ())
  | '%' :: 'd' :: fr, input, f =>
    (match readNum 2 input with
    | some (d, rest) => chronoScan fr rest { f with day := some d }
    | none => .error ())
  | '%' :: 'H' :: fr, input, f =>
    (match readNum 2 input with
    | some (h, rest) => chronoScan fr rest { f with hour := some h }
    | none => .error ())
  | '%' :: 'M' :: fr, input, f =>
    (match readNum 2 input with
    | some (m, rest) => chronoScan fr rest { f with minute := some m }
    | none => .error ())
  | '%' :: 'Y' :: fr, input, f =>
    (match readNum 4 input with
    | some (y, rest) => chronoScan fr rest { f with year := some y }
    | none => .error ())
  | '%' :: _ :: _, _, _ => .error ()
  | ['%'], _, _ => .error ()
  | c :: fr, input, f =>
    if c.isWhitespace then
      chronoScan fr (input.dropWhile Char.isWhitespace) f
    else
      match input with
      | c2 :: rest => if c2 = c then chronoScan fr rest f else .error ()
      | [] => .error ()

/-- Gregorian leap year. -/
def isLeapYear (y : Nat) : Bool :=
  (y % 4 == 0 && y % 100 != 0) || y % 400 == 0

/-- Days in a month of the proleptic Gregorian calendar. -/
def daysInMonth (y m : Nat) : Nat :=
  if m == 2 then (if isLeapYear y then 29 else 28)
  else if m == 4 || m == 6 || m == 9 || m == 11 then 30
  else 31

/-- chrono NaiveDate::parse_from_str: the scanner followed by from_ymd
validation; the repository only hands it complete-date formats. -/
def chronoParseDate (tm fmt : String) : Except Unit (Nat × Nat × Nat) :=
  match chronoScan fmt.data tm.data {} with
  | .error _ => .error ()
  | .ok f =>
    match f.year, f.month, f.day with
    | some y, some m, some d =>
      if 1 ≤ d ∧ d ≤ daysInMonth y m then .ok (y, m, d) else .error ()
    | _, _, _ => .error ()

/-- chrono NaiveDateTime::parse_from_str: likewise, with the hour and minute
validated as in and_hms. -/
def chronoParseDateTime (tm fmt : String) :
    Except Unit (Nat × Nat × Nat × Nat × Nat) :=
  match chronoScan fmt.data tm.data {} with
  | .error _ => .error ()
  | .ok f =>
    match f.year, f.month, f.day, f.hour, f.minute with
    | some y, some m, some d, some hh, some mm =>
      if 1 ≤ d ∧ d ≤ daysInMonth y m ∧ hh < 24 ∧ mm < 60 then
        .ok (y, m, d, hh, mm)
      else .error ()
    | _, _, _, _, _ => .error ()

/-- The year chrono Utc::now().year() reads inside parse_lstime: the ambient
wall clock, closed over a fixed year. Every claim statement is independent
of this value, because the appended year sits after the month and day text
and the claims' inputs are decided on those fields alone. -/
def utcNowYear : Nat := 2026

/-- utils/parser.rs parse_lstime: try the explicit-year ls date format; on
failure, append the current wall-clock year to the text and " %Y" to the
clock-time format and try again, propagating a second failure. The returned
SystemTime keeps the parsed calendar fields, a date-only parse carrying
midnight as in and_hms(0, 0, 0). -/
def parse_lstime (tm fmt_year fmt_hours : String) : Except Unit STime :=
  match chronoParseDate tm fmt_year with
  | .ok (y, m, d) => .ok (.instant y m d 0 0)
  | .error _ =>
    match chronoParseDateTime (tm ++ " " ++ toString utcNowYear)
        (fmt_hours ++ " %Y") with
    | .ok (y, m, d, hh, mm) => .ok (.instant y m d hh mm)
    | .error _ => .error ()

/-- Zero-pad a number, as the chrono numeric format specifiers render. -/
def zeroPad (w n : Nat) : String :=
  let s := toString n
  if s.length < w then String.mk (List.replicate (w - s.length) '0') ++ s
  else s

/-- The calendar fields of an instant (the epoch is 1970-01-01 00:00 UTC). -/
def STime.calendar : STime → Nat × Nat × Nat × Nat × Nat
  | .epoch => (1970, 1, 1, 0, 0)
  | .instant y m d hh mm => (y, m, d, hh, mm)

/-- The chrono DateTime formatter, covering the specifiers the repository's
formats use (seconds are always zero in the representable instants); a
specifier outside the covered set renders nothing. -/
def chronoFormat (t : STime) : List Char → String
  | [] => ""
  | '%' :: 'Y' :: fr => zeroPad 4 t.calendar.1 ++ chronoFormat t fr
  | '%' :: 'm' :: fr => zeroPad 2 t.calendar.2.1 ++ chronoFormat t fr
  | '%' :: 'd' :: fr => zeroPad 2 t.calendar.2.2.1 ++ chronoFormat t fr
  | '%' :: 'H' :: fr => zeroPad 2 t.calendar.2.2.2.1 ++ chronoFormat t fr
  | '%' :: 'M' :: fr => zeroPad 2 t.calendar.2.2.2.2 ++ chronoFormat t fr
  | '%' :: 'S' :: fr => zeroPad 2 0 ++ chronoFormat t fr
  | '%' :: _ :: fr => chronoFormat t fr
  | c :: fr => String.mk [c] ++ chronoFormat t fr

/-- utils/fmt.rs fmt_time_utc: render the instant in UTC through the chrono
formatter, modelled by chronoFormat over the instant's calendar fields. -/
def fmt_time_utc (time : STime) (fmt : String) : String :=
  chronoFormat time fmt.data

/-- fs/file Metadata as used by the SCP driver. -/
structure Metadata where
  atime : STime
  ctime : STime
  gid : Option Nat
  mode : Option UnixPex
  mtime : STime
  size : Nat
  symlink : Option String
  uid : Option Nat
deriving DecidableEq, Repr

/-- fs/file Directory as constructed by the SCP driver. -/
structure Directory where
  name : String
  path : String
  metadata : Metadata
deriving DecidableEq, Repr

/-- fs/file File as constructed by the SCP driver. -/
structure File where
  name : String
  path : String
  extension : Option String
  metadata : Metadata
deriving DecidableEq, Repr

/-- fs/file Entry: a directory or a file. -/
inductive Entry where
  | directory (d : Directory)
  | file (f : File)
deriving DecidableEq, Repr

/-- Rust str::trim: unicode whitespace removed from both ends. -/
def rustTrim (s : String) : String :=
  String.mk (((s.data.dropWhile Char.isWhitespace).reverse.dropWhile
    Char.isWhitespace).reverse)

/-- Rust str::starts_with with a char pattern. -/
def startsWithChar (c : Char) (s : String) : Bool := s.data.head? = some c

/-- Rust str::lines: split at newlines, strip a carriage return at the end of
a line, and drop the trailing empty segment of a terminating newline. -/
def rustLines (s : String) : List String :=
  let segs := splitChars '\n' s.data
  let segs := match segs.getLast? with
    | some [] => segs.dropLast
    | _ => segs
  segs.map (fun l =>
    String.mk (match l.getLast? with
      | some c => if c = '\r' then l.dropLast else l
      | none => l))

/-- Rust Path::file_name: the final component when it is a normal one. -/
def rustFileName (s : String) : Option String :=
  match (components s).getLast? with
  | some (Component.normal n) => some n
  | _ => none

/-- Rust Path::parent modelled componentwise: the path without its final
component, none when only a root (or nothing) remains. -/
def rustParent (s : String) : Option String :=
  match (components s).getLast? with
  | none => none
  | some Component.rootDir => none
  | some _ => some (joinComps (components s).dropLast)

/-- Rust Path::extension: the part of the file name after its last dot,
unless the only dot is the leading one. -/
def rustExtension (s : String) : Option String :=
  match rustFileName s with
  | none => none
  | some fn =>
    let rcs := fn.data.reverse
    let ext := rcs.takeWhile (fun c => c ≠ '.')
    match rcs.drop ext.length with
    | '.' :: stemRev => if stemRev = [] then none else some (String.mk ext.reverse)
    | _ => none

/-- Rust str::parse for unsigned integers: an optional plus sign, then only
digits, rejecting the empty digit string and out-of-range values. -/
def rustParseNat (bound : Nat) (l : List Char) : Option Nat :=
  let l := match l with
    | '+' :: rest => rest
    | _ => l
  if l ≠ [] ∧ l.all Char.isDigit then
    let n := l.foldl (fun acc c => acc * 10 + (c.toNat - 48)) 0
    if n < bound then some n else none
  else none

/-- Rust str::parse::<u32>. -/
def parseU32 (l : List Char) : Option Nat := rustParseNat (2 ^ 32) l

/-- Rust str::parse::<u64>. -/
def parseU64 (l : List Char) : Option Nat := rustParseNat (2 ^ 64) l

/-- Fuelled worker for Rust str::split with a string separator. -/
def splitOnGo (sep : List Char) : Nat → List Char → List (List Char)
  | _, [] => [[]]
  | 0, l => [l]
  | n + 1, c :: rest =>
    if sep.isPrefixOf (c :: rest) then
      [] :: splitOnGo sep n ((c :: rest).drop sep.length)
    else
      match splitOnGo sep (n + 1) rest with
      | [] => [[c]]
      | h :: t => (c :: h) :: t

/-- Rust str::split with a (non-empty) string separator. -/
def splitOnChars (sep l : List Char) : List (List Char) :=
  splitOnGo sep l.length l

-- client/ssh/scp.rs: the LS_RE regular expression, as a small backtracking
-- matcher with leftmost-first alternation and greedy repetition, which is
-- what the rust regex engine produces for this anchored pattern.

/-- Regular-expression syntax: character classes, sequencing, prioritized
alternation, greedy star and capture groups. -/
inductive RE where
  | cls (p : Char → Bool)
  | eps
  | seq (a b : RE)
  | alt (a b : RE)
  | star (a : RE)
  | group (i : Nat) (a : RE)

/-- Captured groups: group index paired with the consumed characters. -/
abbrev Caps := List (Nat × List Char)

/-- Backtracking matcher in continuation-passing style; fuel only bounds the
call depth (stars over character classes always consume). Alternation takes
the first branch that lets the whole continuation succeed; star tries the
longer match first. -/
def mrun (α : Type) : Nat → RE → List Char → Caps →
    (List Char → Caps → Option α) → Option α
  | 0, _, _, _, _ => none
  | _ + 1, RE.cls _, [], _, _ => none
  | _ + 1, RE.cls p, c :: rest, caps, k => if p c then k rest caps else none
  | _ + 1, RE.eps, s, caps, k => k s caps
  | n + 1, RE.seq a b, s, caps, k =>
    mrun α n a s caps (fun s2 c2 => mrun α n b s2 c2 k)
  | n + 1, RE.alt a b, s, caps, k =>
    match mrun α n a s caps k with
    | some r => some r
    | none => mrun α n b s caps k
  | n + 1, RE.star a, s, caps, k =>
    match mrun α n a s caps (fun s2 c2 =>
        if s2.length < s.length then mrun α n (RE.star a) s2 c2 k else none) with
    | some r => some r
    | none => k s caps
  | n + 1, RE.group i a, s, caps, k =>
    mrun α n a s caps (fun s2 c2 => k s2 ((i, s.take (s.length - s2.length)) :: c2))

/-- Greedy one-or-more repetition. -/
def rePlus (r : RE) : RE := RE.seq r (RE.star r)

/-- Exact n-fold repetition. -/
def reRepeat : Nat → RE → RE
  | 0, _ => RE.eps
  | n + 1, r => RE.seq r (reRepeat n r)

/-- Greedy zero-or-one repetition. -/
def reOpt (r : RE) : RE := RE.alt r RE.eps

/-- Class of the regex escape for whitespace (ASCII part). -/
def wsChar (c : Char) : Bool :=
  c = ' ' || c = '\t' || c = '\n' || c = '\r' || c = '\x0b' || c = '\x0c'

/-- Class of the regex escape for decimal digits. -/
def digitChar (c : Char) : Bool := c.isDigit

/-- Class of the regex escape for word characters. -/
def wordChar (c : Char) : Bool := c.isAlphanum || c = '_'

/-- Class of the regex dot: any character but a newline. -/
def anyChar (c : Char) : Bool := c ≠ '\n'

/-- Entry-type character class of LS_RE group 1. -/
def typeChar (c : Char) : Bool := c = '-' || c = 'l' || c = 'd'

/-- Permission character class of LS_RE group 2. -/
def pexChar (c : Char) : Bool := c = '-' || c = 'r' || c = 'w' || c = 'x' || c = 's'

/-- One or two digits, greedy. -/
def reDigit12 : RE := RE.seq (RE.cls digitChar) (reOpt (RE.cls digitChar))

/-- The clock-time branch of the LS_RE date field. -/
def reClock : RE := RE.seq reDigit12 (RE.seq (RE.cls (fun c => c = ':')) reDigit12)

/-- The date field of LS_RE (group 7): month word, day, then clock time or a
four-digit year. -/
def reDate : RE :=
  RE.seq (reRepeat 3 (RE.cls wordChar))
    (RE.seq (rePlus (RE.cls wsChar))
      (RE.seq reDigit12
        (RE.seq (rePlus (RE.cls wsChar))
          (RE.alt reClock (reRepeat 4 (RE.cls digitChar))))))

/-- The anchored ls -l line pattern of scp.rs (LS_RE), group by group. -/
def LS_RE : RE :=
  RE.seq (RE.group 1 (RE.cls typeChar))
    (RE.seq (RE.group 2 (reRepeat 9 (RE.cls pexChar)))
      (RE.seq (rePlus (RE.cls wsChar))
        (RE.seq (RE.group 3 (rePlus (RE.cls digitChar)))
          (RE.seq (rePlus (RE.cls wsChar))
            (RE.seq (RE.group 4 (rePlus (RE.cls anyChar)))
              (RE.seq (rePlus (RE.cls wsChar))
                (RE.seq (RE.group 5 (rePlus (RE.cls anyChar)))
                  (RE.seq (rePlus (RE.cls wsChar))
                    (RE.seq (RE.group 6 (rePlus (RE.cls digitChar)))
                      (RE.seq (rePlus (RE.cls wsChar))
                        (RE.seq (RE.group 7 reDate)
                          (RE.seq (rePlus (RE.cls wsChar))
                            (RE.group 8 (rePlus (RE.cls anyChar)))))))))))))))

/-- The eight captured fields of LS_RE. -/
structure LsCaptures where
  g1 : List Char
  g2 : List Char
  g3 : List Char
  g4 : List Char
  g5 : List Char
  g6 : List Char
  g7 : List Char
  g8 : List Char
deriving DecidableEq, Repr

/-- Regex::captures against LS_RE: the pattern is anchored at both ends, so a
match must consume the entire line. -/
def lsMatch (line : String) : Option LsCaptures :=
  match mrun Caps (line.data.length * 2 + 300) LS_RE line.data []
      (fun s caps => if s = [] then some caps else none) with
  | none => none
  | some caps =>
    some
      { g1 := (caps.lookup 1).getD []
        g2 := (caps.lookup 2).getD []
        g3 := (caps.lookup 3).getD []
        g4 := (caps.lookup 4).getD []
        g5 := (caps.lookup 5).getD []
        g6 := (caps.lookup 6).getD []
        g7 := (caps.lookup 7).getD []
        g8 := (caps.lookup 8).getD [] }

/-- Rust Captures::len: the number of groups of the regex including the whole
match, a static property of LS_RE (eight parenthesized groups plus group 0). -/
def capturesCount (_caps : LsCaptures) : Nat := 9

/-- The type-character dispatch of parse_ls_output: is_dir and is_symlink, or
a rejection for special files. -/
def typeCharInfo : List Char → Option (Bool × Bool)
  | ['-'] => some (false, false)
  | ['l'] => some (false, true)
  | ['d'] => some (true, false)
  | _ => none

/-- The per-class bit counter of parse_ls_output: any character other than a
dash grants the positional bit. -/
def pexCount (l : List Char) : Nat :=
  (l.enum.map (fun ic =>
    if ic.2 = '-' then 0
    else match ic.1 with
      | 0 => 4
      | 1 => 2
      | 2 => 1
      | _ => 0)).sum

/-- ScpFs::get_name_and_link: split the name token on the arrow separator. -/
def get_name_and_link (token : String) : String × Option String :=
  let tokens := splitOnChars " -> ".data token.data
  (String.mk (tokens.headD []), (tokens.get? 1).map String.mk)

/-- ScpFs::parse_ls_output: match the fixed LS_RE pattern, reject special
files and short permission fields, read permissions positionally, degrade
unparseable uid/gid/size, split symlink names, sanitize the file name to its
final path component, drop dot entries, and build the entry rooted at the
given path. -/
def parse_ls_output (path line : String) : Except Unit Entry :=
  match lsMatch line with
  | none => .error ()
  | some meta =>
    if capturesCount meta < 8 then .error ()
    else
      match typeCharInfo meta.g1 with
      | none => .error ()
      | some (is_dir, is_symlink) =>
        if meta.g2.length < 9 then .error ()
        else
          let pex := fun (a b : Nat) => pexCount ((meta.g2.drop a).take (b - a))
          let mode := UnixPex.mk (.fromBits (pex 0 3)) (.fromBits (pex 3 6))
            (.fromBits (pex 6 9))
          let mtime := match parse_lstime (String.mk meta.g7) "%b %d %Y" "%b %d %H:%M" with
            | .ok t => t
            | .error _ => STime.epoch
          let uid := parseU32 meta.g4
          let gid := parseU32 meta.g5
          let size := (parseU64 meta.g6).getD 0
          let nameLink :=
            if is_symlink then get_name_and_link (String.mk meta.g8)
            else (String.mk meta.g8, none)
          let file_name := (rustFileName nameLink.1).getD nameLink.1
          if file_name = "." ∨ file_name = ".." then .error ()
          else
            let path' := pushPath path file_name
            let extension := rustExtension path'
            let metadata : Metadata :=
              { atime := .epoch, ctime := .epoch, gid := gid, mode := some mode
                mtime := mtime, size := size, symlink := nameLink.2, uid := uid }
            if is_dir then .ok (.directory { name := file_name, path := path', metadata })
            else .ok (.file { name := file_name, path := path', extension, metadata })

-- client/ssh/scp.rs: driver model. The ssh2 session is the external
-- boundary: a connected session answers shell commands through oracles.

/-- External SSH session boundary: commons::perform_shell_cmd raw stdout and
the exit-code variant are oracle queries (an error models a channel-level
protocol failure); scp send/receive channel setup outcomes are flags. -/
structure SshRemote where
  authenticated : Bool
  banner : Option String
  shellCmd : String → Except Unit String
  shellCmdRc : String → Except Unit (Nat × String)
  disconnectOk : Bool
  scpSendOk : Bool
  scpRecvOk : Bool

/-- commons::perform_shell_cmd. -/
def perform_shell_cmd (r : SshRemote) (cmd : String) : Except Unit String :=
  r.shellCmd cmd

/-- Modelled from the spec: perform_shell_cmd_with_rc is called by the SCP
driver but its definition is not under src; per the spec the shell channel
reports the command exit code together with the captured stdout. -/
def perform_shell_cmd_with_rc (r : SshRemote) (cmd : String) :
    Except Unit (Nat × String) :=
  r.shellCmdRc cmd

/-- Modelled from the spec: perform_shell_cmd_at_with_rc (not under src) runs
the command after changing to the given directory, mirroring
perform_shell_cmd_at's formatting, and reports exit code and stdout. -/
def perform_shell_cmd_at_with_rc (r : SshRemote) (cmd p : String) :
    Except Unit (Nat × String) :=
  r.shellCmdRc ("cd \"" ++ p ++ "\"; " ++ cmd)

/-- SSH options; commons::connect performing handshake and authentication is
the external boundary, so the options carry its outcome: none models a failed
connection, some r an established authenticated session. -/
structure SshOpts where
  connect_result : Option SshRemote

/-- client/ssh/scp.rs ScpFs driver state. -/
structure ScpFs where
  session : Option SshRemote
  wrkdir : String
  opts : SshOpts

/-- ScpFs::new. -/
def ScpFs.new (opts : SshOpts) : ScpFs :=
  { session := none, wrkdir := "/", opts }

/-- ScpFs::is_connected: a session that is authenticated. -/
def ScpFs.is_connected (s : ScpFs) : Bool :=
  (s.session.map (·.authenticated)).getD false

/-- ScpFs::check_connection. -/
def ScpFs.check_connection (s : ScpFs) : Except RemoteErrorType Unit :=
  if s.is_connected then .ok () else .error .NotConnected

/-- The session after a passed connection check (check_connection followed by
the source's session unwrap): none exactly when check_connection fails. -/
def ScpFs.sess (s : ScpFs) : Option SshRemote :=
  match s.session with
  | some r => if r.authenticated then some r else none
  | none => none

/-- ScpFs::connect: establish the session, then initialize the working
directory from the remote's pwd output; the session is installed only after
that command succeeds. -/
def ScpFs.connect (s : ScpFs) : Except RemoteErrorType Welcome × ScpFs :=
  match s.opts.connect_result with
  | none => (.error .ConnectionError, s)
  | some r =>
    match perform_shell_cmd r "pwd" with
    | .error _ => (.error .ProtocolError, s)
    | .ok out =>
      (.ok { banner := r.banner }, { s with wrkdir := rustTrim out, session := some r })

/-- ScpFs::disconnect. -/
def ScpFs.disconnect (s : ScpFs) : Except RemoteErrorType Unit × ScpFs :=
  match s.session with
  | some r =>
    if r.disconnectOk then (.ok (), { s with session := none })
    else (.error .ConnectionError, s)
  | none => (.error .NotConnected, s)

/-- ScpFs::pwd. -/
def ScpFs.pwd (s : ScpFs) : Except RemoteErrorType String × ScpFs :=
  match s.sess with
  | none => (.error .NotConnected, s)
  | some _ => (.ok s.wrkdir, s)

/-- ScpFs::change_dir: run cd, echo the status, re-read pwd; a leading zero
marks success and the rest of the output is the new working directory. -/
def ScpFs.change_dir (s : ScpFs) (dir : String) :
    Except RemoteErrorType String × ScpFs :=
  match s.sess with
  | none => (.error .NotConnected, s)
  | some r =>
    let dir' := absolutize s.wrkdir dir
    match perform_shell_cmd r ("cd \"" ++ dir' ++ "\"; echo $?; pwd") with
    | .error _ => (.error .ProtocolError, s)
    | .ok output =>
      let output := rustTrim output
      if startsWithChar '0' output then
        let newWd := rustTrim (String.mk output.data.tail)
        (.ok newWd, { s with wrkdir := newWd })
      else (.error .NoSuchFileOrDirectory, s)

/-- ScpFs::is_directory via a remote test -d. -/
def ScpFs.is_directory (s : ScpFs) (r : SshRemote) (path : String) :
    Except RemoteErrorType Bool :=
  let path' := absolutize s.wrkdir path
  match perform_shell_cmd_with_rc r ("test -d \"" ++ path' ++ "\"") with
  | .ok (0, _) => .ok true
  | .ok _ => .ok false
  | .error _ => .error .StatFailed

/-- ScpFs::exists via a remote test -e. -/
def ScpFs.exists (s : ScpFs) (path : String) :
    Except RemoteErrorType Bool × ScpFs :=
  match s.sess with
  | none => (.error .NotConnected, s)
  | some r =>
    let path' := absolutize s.wrkdir path
    match perform_shell_cmd_with_rc r ("test -e \"" ++ path' ++ "\"") with
    | .ok (0, _) => (.ok true, s)
    | .ok _ => (.ok false, s)
    | .error _ => (.error .StatFailed, s)

/-- The source's recurring pattern exists(path).ok().unwrap_or(false). -/
def ScpFs.existsOrFalse (s : ScpFs) (path : String) : Bool :=
  match (s.exists path).1 with
  | .ok v => v
  | .error _ => false

/-- ScpFs::list_dir: existence check, then parse each line of a remote
ls -la, keeping the lines that parse. -/
def ScpFs.list_dir (s : ScpFs) (path : String) :
    Except RemoteErrorType (List Entry) × ScpFs :=
  match s.sess with
  | none => (.error .NotConnected, s)
  | some r =>
    let path' := absolutize s.wrkdir path
    if !s.existsOrFalse path' then (.error .NoSuchFileOrDirectory, s)
    else
      match perform_shell_cmd r ("unset LANG; ls -la \"" ++ path' ++ "/\"") with
      | .ok output =>
        (.ok ((rustLines output).filterMap (fun line =>
          match parse_ls_output path' line with
          | .ok e => some e
          | .error _ => none)), s)
      | .error _ => (.error .ProtocolError, s)

/-- ScpFs::stat: pick ls -ld for directories, parse the single line against
the parent directory. -/
def ScpFs.stat (s : ScpFs) (path : String) :
    Except RemoteErrorType Entry × ScpFs :=
  match s.sess with
  | none => (.error .NotConnected, s)
  | some r =>
    let path' := absolutize s.wrkdir path
    match s.is_directory r path' with
    | .error e => (.error e, s)
    | .ok isDir =>
      let cmd := if isDir then "ls -ld \"" ++ path' ++ "\""
        else "ls -l \"" ++ path' ++ "\""
      match perform_shell_cmd r cmd with
      | .error _ => (.error .ProtocolError, s)
      | .ok line =>
        match rustParent path' with
        | none => (.error .StatFailed, s)
        | some parent =>
          match parse_ls_output parent (rustTrim line) with
          | .ok entry => (.ok entry, s)
          | .error _ => (.error .NoSuchFileOrDirectory, s)

/-- ScpFs::assert_stat_command: a zero exit status or a StatFailed error. -/
def ScpFs.assert_stat_command (r : SshRemote) (cmd : String) :
    Except RemoteErrorType Unit :=
  match perform_shell_cmd_with_rc r cmd with
  | .ok (0, _) => .ok ()
  | .ok _ => .error .StatFailed
  | .error _ => .error .ProtocolError

/-- ScpFs::setstat: chmod when a mode is given, chown when a uid is given,
then touch for both times; each step must exit zero. -/
def ScpFs.setstat (s : ScpFs) (path : String) (metadata : Metadata) :
    Except RemoteErrorType Unit × ScpFs :=
  match s.sess with
  | none => (.error .NotConnected, s)
  | some r =>
    let path' := absolutize s.wrkdir path
    if !s.existsOrFalse path' then (.error .NoSuchFileOrDirectory, s)
    else
      let chmodStep := match metadata.mode with
        | some mode =>
          ScpFs.assert_stat_command r
            ("chmod " ++ String.mk (Nat.toDigits 8 mode.toU32) ++ " \"" ++ path' ++ "\"")
        | none => .ok ()
      match chmodStep with
      | .error e => (.error e, s)
      | .ok _ =>
        let chownStep := match metadata.uid with
          | some user =>
            ScpFs.assert_stat_command r
              ("chown " ++ toString user ++
                ((metadata.gid.map (fun g => ":" ++ toString g)).getD "") ++
                " \"" ++ path' ++ "\"")
          | none => .ok ()
        match chownStep with
        | .error e => (.error e, s)
        | .ok _ =>
          match ScpFs.assert_stat_command r
              ("touch -a -t " ++ fmt_time_utc metadata.atime "%Y%m%d%H%M.%S" ++
                " \"" ++ path' ++ "\"") with
          | .error e => (.error e, s)
          | .ok _ =>
            (ScpFs.assert_stat_command r
              ("touch -m -t " ++ fmt_time_utc metadata.mtime "%Y%m%d%H%M.%S" ++
                " \"" ++ path' ++ "\""), s)

/-- ScpFs::remove_file via rm -f. -/
def ScpFs.remove_file (s : ScpFs) (path : String) :
    Except RemoteErrorType Unit × ScpFs :=
  match s.sess with
  | none => (.error .NotConnected, s)
  | some r =>
    let path' := absolutize s.wrkdir path
    if !s.existsOrFalse path' then (.error .NoSuchFileOrDirectory, s)
    else
      match perform_shell_cmd_with_rc r ("rm -f \"" ++ path' ++ "\"") with
      | .ok (0, _) => (.ok (), s)
      | .ok _ => (.error .CouldNotRemoveFile, s)
      | .error _ => (.error .ProtocolError, s)

/-- ScpFs::remove_dir via rmdir. -/
def ScpFs.remove_dir (s : ScpFs) (path : String) :
    Except RemoteErrorType Unit × ScpFs :=
  match s.sess with
  | none => (.error .NotConnected, s)
  | some r =>
    let path' := absolutize s.wrkdir path
    if !s.existsOrFalse path' then (.error .NoSuchFileOrDirectory, s)
    else
      match perform_shell_cmd_with_rc r ("rmdir \"" ++ path' ++ "\"") with
      | .ok (0, _) => (.ok (), s)
      | .ok _ => (.error .DirectoryNotEmpty, s)
      | .error _ => (.error .ProtocolError, s)

/-- ScpFs::remove_dir_all override via rm -rf: one remote command removes the
tree. -/
def ScpFs.remove_dir_all (s : ScpFs) (path : String) :
    Except RemoteErrorType Unit × ScpFs :=
  match s.sess with
  | none => (.error .NotConnected, s)
  | some r =>
    let path' := absolutize s.wrkdir path
    if !s.existsOrFalse path' then (.error .NoSuchFileOrDirectory, s)
    else
      match perform_shell_cmd_with_rc r ("rm -rf \"" ++ path' ++ "\"") with
      | .ok (0, _) => (.ok (), s)
      | .ok _ => (.error .CouldNotRemoveFile, s)
      | .error _ => (.error .ProtocolError, s)

/-- ScpFs::create_dir via mkdir -m. -/
def ScpFs.create_dir (s : ScpFs) (path : String) (mode : UnixPex) :
    Except RemoteErrorType Unit × ScpFs :=
  match s.sess with
  | none => (.error .NotConnected, s)
  | some r =>
    let path' := absolutize s.wrkdir path
    if s.existsOrFalse path' then (.error .DirectoryAlreadyExists, s)
    else
      match perform_shell_cmd_with_rc r
          ("mkdir -m " ++ String.mk (Nat.toDigits 8 mode.toU32) ++
            " \"" ++ path' ++ "\"") with
      | .ok (0, _) => (.ok (), s)
      | .ok _ => (.error .FileCreateDenied, s)
      | .error _ => (.error .ProtocolError, s)

/-- ScpFs::symlink via ln -s: the target must exist and the link path must
not. -/
def ScpFs.symlink (s : ScpFs) (path target : String) :
    Except RemoteErrorType Unit × ScpFs :=
  match s.sess with
  | none => (.error .NotConnected, s)
  | some r =>
    let path' := absolutize s.wrkdir path
    if !s.existsOrFalse target then (.error .NoSuchFileOrDirectory, s)
    else if s.existsOrFalse path' then (.error .FileCreateDenied, s)
    else
      match perform_shell_cmd_with_rc r
          ("ln -s \"" ++ target ++ "\" \"" ++ path' ++ "\"") with
      | .ok (0, _) => (.ok (), s)
      | .ok _ => (.error .FileCreateDenied, s)
      | .error _ => (.error .ProtocolError, s)

/-- ScpFs::copy via cp -rf. -/
def ScpFs.copy (s : ScpFs) (src dest : String) :
    Except RemoteErrorType Unit × ScpFs :=
  match s.sess with
  | none => (.error .NotConnected, s)
  | some r =>
    let src' := absolutize s.wrkdir src
    if !s.existsOrFalse src' then (.error .NoSuchFileOrDirectory, s)
    else
      let dest' := absolutize s.wrkdir dest
      match perform_shell_cmd_with_rc r
          ("cp -rf \"" ++ src' ++ "\" \"" ++ dest' ++ "\"") with
      | .ok (0, _) => (.ok (), s)
      | .ok _ => (.error .FileCreateDenied, s)
      | .error _ => (.error .ProtocolError, s)

/-- ScpFs::mov via mv -f. -/
def ScpFs.mov (s : ScpFs) (src dest : String) :
    Except RemoteErrorType Unit × ScpFs :=
  match s.sess with
  | none => (.error .NotConnected, s)
  | some r =>
    let src' := absolutize s.wrkdir src
    if !s.existsOrFalse src' then (.error .NoSuchFileOrDirectory, s)
    else
      let dest' := absolutize s.wrkdir dest
      match perform_shell_cmd_with_rc r
          ("mv -f \"" ++ src' ++ "\" \"" ++ dest' ++ "\"") with
      | .ok (0, _) => (.ok (), s)
      | .ok _ => (.error .FileCreateDenied, s)
      | .error _ => (.error .ProtocolError, s)

/-- ScpFs::exec at the working directory. -/
def ScpFs.exec (s : ScpFs) (cmd : String) :
    Except RemoteErrorType (Nat × String) × ScpFs :=
  match s.sess with
  | none => (.error .NotConnected, s)
  | some r =>
    match perform_shell_cmd_at_with_rc r cmd s.wrkdir with
    | .ok out => (.ok out, s)
    | .error _ => (.error .ProtocolError, s)

/-- ScpFs::append. -/
def ScpFs.append (s : ScpFs) (_path : String) :
    Except RemoteErrorType Unit × ScpFs :=
  (.error .UnsupportedFeature, s)

/-- ScpFs::create: open an scp send channel (the write stream itself is the
external boundary). -/
def ScpFs.create (s : ScpFs) (path : String) (_metadata : Metadata) :
    Except RemoteErrorType Unit × ScpFs :=
  match s.sess with
  | none => (.error .NotConnected, s)
  | some r =>
    let _path' := absolutize s.wrkdir path
    if r.scpSendOk then (.ok (), s) else (.error .FileCreateDenied, s)

/-- ScpFs::open: existence check, then an scp receive channel. -/
def ScpFs.open (s : ScpFs) (path : String) :
    Except RemoteErrorType Unit × ScpFs :=
  match s.sess with
  | none => (.error .NotConnected, s)
  | some r =>
    let path' := absolutize s.wrkdir path
    if !s.existsOrFalse path' then (.error .NoSuchFileOrDirectory, s)
    else if r.scpRecvOk then (.ok (), s)
    else (.error .CouldNotOpenFile, s)

-- operation traces over the two drivers

/-- The S3 driver operations, with their arguments. -/
inductive S3Op where
  | connectOp (remote : Bucket)
  | disconnectOp
  | pwdOp
  | changeDirOp (dir : String)
  | listDirOp (p : String)
  | statOp (p : String)
  | setstatOp (p : String)
  | existsOp (p : String)
  | removeFileOp (p : String)
  | removeDirOp (p : String)
  | removeDirAllOp (p : String)
  | createDirOp (p : String) (mode : UnixPex)
  | symlinkOp (p t : String)
  | copyOp (src dest : String)
  | movOp (src dest : String)
  | execOp (cmd : String)
  | appendOp (p : String)
  | createOp (p : String)
  | openOp (p : String)
  | createFileOp (p : String) (size : Nat)
  | openFileOp (p : String)

/-- State transition of one S3 operation. -/
def s3Step : S3Op → AwsS3Fs → AwsS3Fs
  | .connectOp remote, s => (s.connect remote).2
  | .disconnectOp, s => s.disconnect.2
  | .pwdOp, s => s.pwd.2
  | .changeDirOp dir, s => (s.change_dir dir).2
  | .listDirOp p, s => (s.list_dir p).2
  | .statOp p, s => (s.stat p).2
  | .setstatOp p, s => (s.setstat p).2
  | .existsOp p, s => (s.exists p).2
  | .removeFileOp p, s => (s.remove_file p).2
  | .removeDirOp p, s => (s.remove_dir p).2
  | .removeDirAllOp p, s => (s.remove_dir_all p).2
  | .createDirOp p mode, s => (s.create_dir p mode).2
  | .symlinkOp p t, s => (s.symlink p t).2
  | .copyOp src dest, s => (s.copy src dest).2
  | .movOp src dest, s => (s.mov src dest).2
  | .execOp cmd, s => (s.exec cmd).2
  | .appendOp p, s => (s.append p).2
  | .createOp p, s => (s.create p).2
  | .openOp p, s => (s.open p).2
  | .createFileOp p size, s => (s.create_file p size).2
  | .openFileOp p, s => (s.open_file p).2

/-- Whether the operation is a change_dir that succeeds in the given state. -/
def s3CdSuccess (op : S3Op) (s : AwsS3Fs) : Bool :=
  match op with
  | .changeDirOp dir =>
    match (s.change_dir dir).1 with
    | .ok _ => true
    | .error _ => false
  | _ => false

/-- Run a trace of S3 operations. -/
def s3Run (ops : List S3Op) (s : AwsS3Fs) : AwsS3Fs :=
  ops.foldl (fun st op => s3Step op st) s

/-- Along this trace no change_dir ever succeeds. -/
def s3NoCdTrace : List S3Op → AwsS3Fs → Prop
  | [], _ => True
  | op :: rest, s => s3CdSuccess op s = false ∧ s3NoCdTrace rest (s3Step op s)

/-- The SCP driver operations, with their arguments. -/
inductive ScpOp where
  | connectOp
  | disconnectOp
  | pwdOp
  | changeDirOp (dir : String)
  | listDirOp (p : String)
  | statOp (p : String)
  | setstatOp (p : String) (m : Metadata)
  | existsOp (p : String)
  | removeFileOp (p : String)
  | removeDirOp (p : String)
  | removeDirAllOp (p : String)
  | createDirOp (p : String) (mode : UnixPex)
  | symlinkOp (p t : String)
  | copyOp (src dest : String)
  | movOp (src dest : String)
  | execOp (cmd : String)
  | appendOp (p : String)
  | createOp (p : String) (m : Metadata)
  | openOp (p : String)

/-- State transition of one SCP operation. -/
def scpStep : ScpOp → ScpFs → ScpFs
  | .connectOp, s => s.connect.2
  | .disconnectOp, s => s.disconnect.2
  | .pwdOp, s => s.pwd.2
  | .changeDirOp dir, s => (s.change_dir dir).2
  | .listDirOp p, s => (s.list_dir p).2
  | .statOp p, s => (s.stat p).2
  | .setstatOp p m, s => (s.setstat p m).2
  | .existsOp p, s => (s.exists p).2
  | .removeFileOp p, s => (s.remove_file p).2
  | .removeDirOp p, s => (s.remove_dir p).2
  | .removeDirAllOp p, s => (s.remove_dir_all p).2
  | .createDirOp p mode, s => (s.create_dir p mode).2
  | .symlinkOp p t, s => (s.symlink p t).2
  | .copyOp src dest, s => (s.copy src dest).2
  | .movOp src dest, s => (s.mov src dest).2
  | .execOp cmd, s => (s.exec cmd).2
  | .appendOp p, s => (s.append p).2
  | .createOp p m, s => (s.create p m).2
  | .openOp p, s => (s.open p).2

/-- Whether the operation is a change_dir succeeding in the given state. -/
def scpCdSuccess (op : ScpOp) (s : ScpFs) : Bool :=
  match op with
  | .changeDirOp dir =>
    match (s.change_dir dir).1 with
    | .ok _ => true
    | .error _ => false
  | _ => false

/-- Whether the operation is a connect succeeding in the given state. -/
def scpConnectSuccess (op : ScpOp) (s : ScpFs) : Bool :=
  match op with
  | .connectOp =>
    match s.connect.1 with
    | .ok _ => true
    | .error _ => false
  | _ => false

/-- Run a trace of SCP operations. -/
def scpRun (ops : List ScpOp) (s : ScpFs) : ScpFs :=
  ops.foldl (fun st op => scpStep op st) s

/-- Along this trace no change_dir and no connect ever succeeds. -/
def scpNoCdTrace : List ScpOp → ScpFs → Prop
  | [], _ => True
  | op :: rest, s =>
    scpCdSuccess op s = false ∧ scpConnectSuccess op s = false ∧
      scpNoCdTrace rest (scpStep op s)

-- spec-side comparison definitions and concrete oracles

/-- Modelled from the spec: the direct-child acceptance as the spec words it,
stripping the parent prefix must leave exactly one path segment (non-empty,
slash-free), optionally followed by one trailing slash. -/
def specDirectChild (key parent : String) : Bool :=
  parent.data.isPrefixOf key.data &&
    (let rest := key.data.drop parent.data.length
     (rest ≠ [] && rest.all (fun c => c ≠ '/')) ||
       (rest.dropLast ≠ [] && rest.dropLast.all (fun c => c ≠ '/') &&
         rest.getLast? = some '/'))

/-- Modelled from the spec: the object name as the spec words it, the last
non-empty path segment of the key. -/
def specLastNonEmptySeg (key : String) : String :=
  String.mk (((splitChars '/' key.data).filter (fun t => t ≠ [])).getLastD [])

/-- A concrete connected S3 driver state used to witness C10. -/
def s3demo : AwsS3Fs :=
  { bucket := some ⟨[⟨"tmp/a.txt", 10⟩]⟩, wrkdir := "/tmp",
    bucket_name := "bkt", region := "eu-central-1" }

/-- A concrete healthy SSH remote whose pwd reports a home directory. -/
def demoRemote : SshRemote :=
  { authenticated := true
    banner := none
    shellCmd := fun _ => Except.ok "/home/omar\n"
    shellCmdRc := fun _ => Except.ok (0, "")
    disconnectOk := true
    scpSendOk := true
    scpRecvOk := true }

example : absolutize "/home/omar" "readme.txt" = "/home/omar/readme.txt" := by decide
example : absolutize "/home/omar" "/tmp/readme.txt" = "/tmp/readme.txt" := by decide
example : diff_paths "/foo/bar" "/" = some "foo/bar" := by decide
example : diff_paths "/foo/bar" "/foo" = some "bar" := by decide
example : diff_paths "/foo/bar/chiedo.gif" "/" = some "foo/bar/chiedo.gif" := by decide
example : pathEq "/dir/" "/dir" = true := by decide
example : pathEq "/." "/" = true := by decide
example : UnixPex.toU32 (UnixPex.fromU32 0o644) = 0o644 := by decide

-- sanity checks mirroring the repository's unit tests
example : object_name "pippo/sottocartella/chiedo.gif" = "chiedo.gif" := by decide
example : object_name "pippo/sottocartella/" = "sottocartella" := by decide
example : object_name "pippo/" = "pippo" := by decide
example : is_direct_child "pippo/" "" = true := by decide
example : is_direct_child "pippo/sottocartella/" "" = false := by decide
example : is_direct_child "pippo/sottocartella/" "pippo/" = true := by decide
example : is_direct_child "pippo/sottocartella/" "pippo" = false := by decide
example : is_direct_child "pippo/sottocartella/readme.md" "pippo/sottocartella/" = true := by
  decide
example : resolve "/tmp" "/tmp/sottocartella/" = "tmp/sottocartella" := by decide
example : resolve "/tmp" "subfolder/" = "tmp/subfolder" := by decide
example : fmt_path "/tmp/omar.txt" false = "tmp/omar.txt" := by decide
example : fmt_path "omar.txt" false = "omar.txt" := by decide
example : fmt_path "/tmp/subfolder" true = "tmp/subfolder/" := by decide
example : fmt_path "tmp/subfolder" true = "tmp/subfolder/" := by decide
example : fmt_path "tmp" true = "tmp/" := by decide
example : fmt_path "tmp/" true = "tmp/" := by decide
example : fmt_path "/" true = "" := by decide

-- utils/parser.rs and utils/fmt.rs unit tests (clock-time parses carry the
-- wall-clock year)

example : parse_lstime "Nov 5 16:32" "%b %d %Y" "%b %d %H:%M" =
  .ok (.instant utcNowYear 11 5 16 32) := by decide

example : parse_lstime "Dec 2 21:32" "%b %d %Y" "%b %d %H:%M" =
  .ok (.instant utcNowYear 12 2 21 32) := by decide

example : parse_lstime "Nov 5 2018" "%b %d %Y" "%b %d %H:%M" =
  .ok (.instant 2018 11 5 0 0) := by decide

example : parse_lstime "Mar 18 2018" "%b %d %Y" "%b %d %H:%M" =
  .ok (.instant 2018 3 18 0 0) := by decide

example : parse_lstime "Oma 31 2018" "%b %d %Y" "%b %d %H:%M" = .error () := by
  decide

example : parse_lstime "Feb 31 2018" "%b %d %Y" "%b %d %H:%M" = .error () := by
  decide

example : parse_lstime "Feb 15 25:32" "%b %d %Y" "%b %d %H:%M" = .error () := by
  decide

example : parse_lstime "giu 13 21:11" "%b %d %Y" "%b %d %H:%M" = .error () := by
  decide

example : parse_ls_output "/tmp"
    "-rw-rw-rw- 1 root root  3368 nov  7  2020 CODE_OF_CONDUCT.md" =
  .ok (.file
    { name := "CODE_OF_CONDUCT.md", path := "/tmp/CODE_OF_CONDUCT.md",
      extension := some "md",
      metadata :=
        { atime := .epoch, ctime := .epoch, gid := none,
          mode := some (UnixPex.fromU32 0o666),
          mtime := .instant 2020 11 7 0 0, size := 3368,
          symlink := none, uid := none } }) := by decide

example : fmt_time_utc .epoch "%Y-%m-%d %H:%M" = "1970-01-01 00:00" := by decide

example : fmt_time_utc .epoch "%Y%m%d%H%M.%S" = "197001010000.00" := by decide

-- helper lemmas on the string model

theorem data_append (a b : String) : (a ++ b).data = a.data ++ b.data := by
  cases a
  cases b
  rfl

theorem mk_data (s : String) : String.mk s.data = s := by
  cases s
  rfl

theorem ne_empty_iff_data (s : String) : s ≠ "" ↔ s.data ≠ [] := by
  cases s with
  | mk d =>
    have hiff : (String.mk d = "") ↔ d = [] := by
      constructor
      · intro h
        have h2 := congrArg String.data h
        simpa using h2
      · intro h
        subst h
        rfl
    exact not_congr hiff

theorem endsWithChar_append_slash (s : String) :
    endsWithChar '/' (s ++ "/") = true := by
  have : (s ++ "/").data = s.data ++ ['/'] := data_append s "/"
  simp [endsWithChar, this]

theorem endsWith_if_append (X : String) :
    endsWithChar '/' (if endsWithChar '/' X = true then X else X ++ "/") = true := by
  by_cases h : endsWithChar '/' X = true
  · simp [h]
  · simp [h, endsWithChar_append_slash]

theorem append_slash_ne (s : String) : s ++ "/" ≠ s := by
  intro h
  have := congrArg (fun t => t.data.length) h
  simp [data_append] at this

theorem isAbsolute_data_ne {w : String} (hw : isAbsolute w = true) :
    w.data ≠ [] := by
  intro h
  simp [isAbsolute, h] at hw

theorem isAbsolute_append {w : String} (p : String) (hw : isAbsolute w = true) :
    isAbsolute (w ++ p) = true := by
  rcases hd : w.data with _ | ⟨c, cs⟩
  · exact absurd hd (isAbsolute_data_ne hw)
  · simp [isAbsolute, data_append, hd] at hw ⊢
    exact hw

theorem pushPath_abs {w : String} (p : String) (hw : isAbsolute w = true) :
    isAbsolute (pushPath w p) = true := by
  unfold pushPath
  by_cases hp : isAbsolute p
  · simp [hp]
  · simp only [hp, if_false, Bool.false_eq_true]
    split
    · exact isAbsolute_append p hw
    · have h1 : isAbsolute (w ++ "/") = true := isAbsolute_append "/" hw
      exact isAbsolute_append p h1

theorem absolutize_abs {w : String} (p : String) (hw : isAbsolute w = true) :
    isAbsolute (absolutize w p) = true := by
  unfold absolutize
  split
  · assumption
  · exact pushPath_abs p hw

theorem splitChars_ne_nil (sep : Char) (l : List Char) : splitChars sep l ≠ [] := by
  cases l with
  | nil => simp [splitChars]
  | cons c rest =>
    simp only [splitChars]
    cases splitChars sep rest with
    | nil => simp
    | cons x xs =>
      by_cases h : c = sep <;> simp [h]

theorem splitChars_append (sep : Char) (a b : List Char) :
    splitChars sep (a ++ b) =
      (splitChars sep a).dropLast ++
        ((splitChars sep a).getLastD [] ++ (splitChars sep b).headD []) ::
          (splitChars sep b).tail := by
  induction a with
  | nil =>
    cases hb : splitChars sep b with
    | nil => exact absurd hb (splitChars_ne_nil sep b)
    | cons x xs => simp [splitChars, hb]
  | cons c a ih =>
    simp only [List.cons_append, splitChars, List.append_eq]
    rw [ih]
    cases ha : splitChars sep a with
    | nil => exact absurd ha (splitChars_ne_nil sep a)
    | cons x xs =>
      cases hb : splitChars sep b with
      | nil => exact absurd hb (splitChars_ne_nil sep b)
      | cons y ys =>
        by_cases hc : c = sep
        · cases xs <;>
            simp [hc, List.dropLast, List.getLastD, List.headD]
        · cases xs <;>
            simp [hc, List.dropLast, List.getLastD, List.headD]

theorem splitChars_no_sep (sep : Char) (l : List Char)
    (hl : ∀ c ∈ l, c ≠ sep) : splitChars sep l = [l] := by
  induction l with
  | nil => rfl
  | cons c rest ih =>
    have hc : c ≠ sep := hl c (by simp)
    have hr := ih (fun x hx => hl x (by simp [hx]))
    simp [splitChars, hr, hc]

theorem splitChars_concat_sep (sep : Char) (l' : List Char) :
    splitChars sep (l' ++ [sep]) =
      (splitChars sep l').dropLast ++
        [(splitChars sep l').getLastD [], []] := by
  have hsep : splitChars sep [sep] = [[], []] := by simp [splitChars]
  rw [splitChars_append sep l' [sep], hsep]
  simp [List.headD]

/-- The token list of a key formed by a parent that is empty or ends in a
slash, followed by a slash-free segment: the parent's tokens minus its empty
final token, then the segment. -/
theorem tokens_parent_seg (parent name : String)
    (h2 : ∀ c ∈ name.data, c ≠ '/')
    (h3 : parent = "" ∨ endsWithChar '/' parent = true) :
    splitChars '/' (parent ++ name).data =
      (splitChars '/' parent.data).dropLast ++ [name.data] := by
  rw [data_append]
  rw [splitChars_append '/' parent.data name.data,
    splitChars_no_sep '/' name.data h2]
  have hlast : (splitChars '/' parent.data).getLastD [] = [] := by
    rcases h3 with h3 | h3
    · have hd : parent.data = [] := by simp [h3]
      rw [hd]
      rfl
    · have h3' : parent.data.getLast? = some '/' := of_decide_eq_true h3
      rcases List.getLast?_eq_some_iff.mp h3' with ⟨l', hl'⟩
      rw [hl', splitChars_concat_sep '/' l',
        show (splitChars '/' l').dropLast ++
            [(splitChars '/' l').getLastD [], []] =
          ((splitChars '/' l').dropLast ++
            [(splitChars '/' l').getLastD []]) ++ [[]] from by simp,
        List.getLastD_concat]
  rw [hlast]
  simp [List.headD]

/-- object_name of parent-plus-segment and of its directory form: both give
back the segment. -/
theorem object_name_append (parent name : String)
    (h1 : name.data ≠ []) (h2 : ∀ c ∈ name.data, c ≠ '/')
    (h3 : parent = "" ∨ endsWithChar '/' parent = true) :
    object_name (parent ++ name) = name ∧
      object_name (parent ++ name ++ "/") = name := by
  have htok : splitChars '/' (parent ++ name).data =
      (splitChars '/' parent.data).dropLast ++ [name.data] :=
    tokens_parent_seg parent name h2 h3
  constructor
  · unfold object_name
    rw [htok]
    simp only [List.getLast?_concat]
    simp [h1, mk_data]
  · have hdata : (parent ++ name ++ "/").data =
        (parent ++ name).data ++ ['/'] := by
      rw [data_append]
    unfold object_name
    rw [hdata, splitChars_concat_sep '/' (parent ++ name).data, htok,
      List.dropLast_concat, List.getLastD_concat]
    have hassoc :
        (splitChars '/' parent.data).dropLast ++ [name.data, []] =
          ((splitChars '/' parent.data).dropLast ++ [name.data]) ++ [[]] := by
      simp
    rw [hassoc]
    simp only [List.getLast?_concat]
    have hlen :
        (((splitChars '/' parent.data).dropLast ++ [name.data]) ++ ([] : List Char) :: []).length =
          (splitChars '/' parent.data).dropLast.length + 2 := by
      simp
    rw [hlen]
    have hget :
        ((((splitChars '/' parent.data).dropLast ++ [name.data]) ++ [[]]).get?
            ((splitChars '/' parent.data).dropLast.length + 2 - 2)) = some name.data := by
      have h2le : (splitChars '/' parent.data).dropLast.length + 2 - 2 =
          (splitChars '/' parent.data).dropLast.length := by omega
      rw [h2le, List.append_assoc, List.get?_append_right (by omega)]
      simp
    rw [hget]
    simp [mk_data]

theorem getLast?_mem_of {α : Type} {l : List α} {a : α}
    (h : l.getLast? = some a) : a ∈ l := by
  rcases List.getLast?_eq_some_iff.mp h with ⟨l', rfl⟩
  simp

theorem head?_append_some {α : Type} {l : List α} (m : List α) {c : α}
    (h : l.head? = some c) : (l ++ m).head? = some c := by
  cases l with
  | nil => simp at h
  | cons x xs => simpa using h

theorem splitChars_mem_not_sep (sep : Char) (l t : List Char)
    (ht : t ∈ splitChars sep l) : sep ∉ t := by
  induction l generalizing t with
  | nil =>
    simp [splitChars] at ht
    simp [ht]
  | cons c rest ih =>
    simp only [splitChars] at ht
    rcases hr : splitChars sep rest with _ | ⟨x, xs⟩
    · exact absurd hr (splitChars_ne_nil sep rest)
    · rw [hr] at ht
      dsimp only at ht
      by_cases hc : c = sep
      · rw [if_pos hc] at ht
        rcases List.mem_cons.mp ht with h1 | h1
        · simp [h1]
        · exact ih t (by rw [hr]; exact h1)
      · rw [if_neg hc] at ht
        rcases List.mem_cons.mp ht with h1 | h1
        · subst h1
          intro hmem
          rcases List.mem_cons.mp hmem with h2 | h2
          · exact hc h2.symm
          · exact ih x (by rw [hr]; exact List.mem_cons_self x xs) h2
        · exact ih t (by rw [hr]; exact List.mem_cons_of_mem x h1)

theorem segToComp_ne_root (seg : List Char) :
    segToComp seg ≠ some Component.rootDir := by
  unfold segToComp
  split_ifs <;> simp

/-- A component produced from a slash-free token renders to a non-empty,
slash-free string. -/
theorem segToComp_good (seg : List Char) (c : Component)
    (hseg : '/' ∉ seg) (h : segToComp seg = some c) :
    c.str.data ≠ [] ∧ '/' ∉ c.str.data := by
  unfold segToComp at h
  split_ifs at h with h1 h2 h3
  · injection h with h
    subst h
    exact ⟨by decide, by decide⟩
  · injection h with h
    subst h
    exact ⟨h1, hseg⟩

theorem components_abs (s : String) (h : isAbsolute s = true) :
    components s =
      Component.rootDir :: (splitChars '/' s.data).filterMap segToComp := by
  unfold components
  simp [h]

theorem components_root : components "/" = [Component.rootDir] := by decide

theorem components_ne_root (s : String) (h : isAbsolute s = false) :
    components s ≠ [Component.rootDir] := by
  unfold components
  simp only [h, Bool.false_eq_true, if_false]
  cases hsegs : splitChars '/' s.data with
  | nil => simp
  | cons seg rest =>
    dsimp only
    by_cases hdot : seg = ['.']
    · simp [hdot]
    · rw [if_neg hdot]
      intro hcontra
      have hmem : Component.rootDir ∈ (seg :: rest).filterMap segToComp := by
        rw [hcontra]
        simp
      rcases List.mem_filterMap.mp hmem with ⟨x, _, hx⟩
      exact segToComp_ne_root x hx

theorem pathEq_root_false (s : String) (h : isAbsolute s = false) :
    pathEq s "/" = false := by
  unfold pathEq
  rw [components_root]
  exact decide_eq_false (components_ne_root s h)

/-- Pushing a good component string keeps the accumulator relative and
without a trailing slash. -/
theorem pushPath_keeps (acc t : String)
    (ha1 : isAbsolute acc = false) (ha2 : endsWithChar '/' acc = false)
    (ht1 : t.data ≠ []) (ht2 : '/' ∉ t.data) :
    isAbsolute (pushPath acc t) = false ∧
      endsWithChar '/' (pushPath acc t) = false := by
  have habs_t : isAbsolute t = false := by
    rcases hd : t.data with _ | ⟨c, cs⟩
    · exact absurd hd ht1
    · have hc : c ≠ '/' := by
        intro hcc
        apply ht2
        rw [hd, hcc]
        exact List.mem_cons_self _ _
      unfold isAbsolute
      rw [hd]
      simpa using hc
  unfold pushPath
  rw [habs_t]
  simp only [Bool.false_eq_true, if_false, ha2, Bool.or_false]
  by_cases hacc : acc = ""
  · rw [if_pos (by simp [hacc])]
    subst hacc
    have hdata : ("" ++ t).data = [] ++ t.data := by
      rw [data_append]
    constructor
    · unfold isAbsolute at habs_t ⊢
      rw [hdata]
      simpa using habs_t
    · unfold endsWithChar
      rw [hdata, List.getLast?_append_of_ne_nil [] ht1]
      exact decide_eq_false (fun heq => ht2 (getLast?_mem_of heq))
  · rw [if_neg (by simp [hacc])]
    have haccd : acc.data ≠ [] := (ne_empty_iff_data acc).mp hacc
    constructor
    · have hdata : (acc ++ "/" ++ t).data = acc.data ++ ("/".data ++ t.data) := by
        rw [data_append, data_append, List.append_assoc]
      unfold isAbsolute at ha1 ⊢
      rw [hdata]
      rcases hcd : acc.data with _ | ⟨a, as⟩
      · exact absurd hcd haccd
      · rw [hcd] at ha1
        simp only [List.cons_append, List.head?_cons] at ha1 ⊢
        exact ha1
    · have hdata : (acc ++ "/" ++ t).data = (acc.data ++ "/".data) ++ t.data := by
        rw [data_append, data_append]
      unfold endsWithChar
      rw [hdata, List.getLast?_append_of_ne_nil _ ht1]
      exact decide_eq_false (fun heq => ht2 (getLast?_mem_of heq))

theorem joinComps_keeps (cs : List Component) (acc : String)
    (ha1 : isAbsolute acc = false) (ha2 : endsWithChar '/' acc = false)
    (h : ∀ c ∈ cs, c.str.data ≠ [] ∧ '/' ∉ c.str.data) :
    isAbsolute (cs.foldl (fun a c => pushPath a c.str) acc) = false ∧
      endsWithChar '/' (cs.foldl (fun a c => pushPath a c.str) acc) = false := by
  induction cs generalizing acc with
  | nil => exact ⟨ha1, ha2⟩
  | cons c cs ih =>
    rcases h c (List.mem_cons_self _ _) with ⟨h1, h2⟩
    rcases pushPath_keeps acc c.str ha1 ha2 h1 h2 with ⟨p1, p2⟩
    simp only [List.foldl_cons]
    exact ih (pushPath acc c.str) p1 p2
      (fun x hx => h x (List.mem_cons_of_mem c hx))

theorem diffLoop_nil_base (cs : List Component) (e : Bool) :
    diffLoop cs [] e = some cs := by
  cases cs <;> rfl

theorem filterMap_segToComp_good (s : String) :
    ∀ c ∈ (splitChars '/' s.data).filterMap segToComp,
      c.str.data ≠ [] ∧ '/' ∉ c.str.data := by
  intro c hc
  rcases List.mem_filterMap.mp hc with ⟨seg, hseg, hsc⟩
  exact segToComp_good seg c (splitChars_mem_not_sep '/' s.data seg hseg) hsc

theorem resolve_eq (w p : String) (hw : isAbsolute w = true) :
    resolve w p =
      joinComps ((splitChars '/' (absolutize w p).data).filterMap segToComp) := by
  have hq : isAbsolute (absolutize w p) = true := absolutize_abs p hw
  have hroot : isAbsolute "/" = true := by decide
  unfold resolve diff_paths
  rw [hq, hroot, if_neg (by simp), components_abs _ hq, components_root]
  simp [diffLoop, diffLoop_nil_base]

theorem resolve_keeps (w p : String) (hw : isAbsolute w = true) :
    isAbsolute (resolve w p) = false ∧
      endsWithChar '/' (resolve w p) = false := by
  rw [resolve_eq w p hw]
  unfold joinComps
  exact joinComps_keeps _ "" (by decide) (by decide)
    (filterMap_segToComp_good (absolutize w p))

theorem fmt_path_rel (r : String) (h1 : isAbsolute r = false)
    (h2 : endsWithChar '/' r = false) :
    fmt_path r true = r ++ "/" ∧ fmt_path r false = r := by
  have hpe := pathEq_root_false r h1
  unfold fmt_path
  rw [hpe]
  constructor <;> simp [h1, h2]

/-- C9: for every mode integer m in 0..=0o777, converting m into a UnixPex
and back to u32 yields m again. -/
theorem claim_C9_unixpex_roundtrip (m : Nat) (h : m ≤ 0o777) :
    UnixPex.toU32 (UnixPex.fromU32 m) = m := by
  revert h
  revert m
  decide

/-- C9 witness: the round trip at the concrete mode 0o644. -/
theorem claim_C9_witness :
    0o644 ≤ 0o777 ∧ UnixPex.toU32 (UnixPex.fromU32 0o644) = 0o644 :=
  ⟨by decide, claim_C9_unixpex_roundtrip 0o644 (by decide)⟩

/-- C1: the S3 override of remove_dir_all evaluated at the failing input: a
bucket holding the directory marker dir/ and the nested object dir/a.txt;
the call reports success, yet only the marker was deleted and the descendant
object is still present afterwards, contradicting the remove-everything
contract. -/
theorem claim_C1_s3_remove_dir_all_leaves_descendant :
    AwsS3Fs.remove_dir_all
        { bucket := some ⟨[⟨"dir/", 0⟩, ⟨"dir/a.txt", 10⟩]⟩, wrkdir := "/",
          bucket_name := "bkt", region := "eu-central-1" } "/dir" =
      (.ok (),
        { bucket := some ⟨[⟨"dir/a.txt", 10⟩]⟩, wrkdir := "/",
          bucket_name := "bkt", region := "eu-central-1" }) := by
  decide

/-- C4 counterexample: absolutize performs no lexical normalization; the
resolved path of the relative input ../b against the working directory /a
keeps its parent-directory component. -/
theorem claim_C4_counterexample :
    absolutize "/a" "../b" = "/a/../b" ∧
      Component.parentDir ∈ components (absolutize "/a" "../b") := by
  decide

/-- C4 amended: resolve returns an absolute target unchanged, pushes a
relative target onto the working directory, and is absolute whenever the
working directory is; no collapsing of dot or parent components happens. -/
theorem claim_C4_absolutize (w p : String) (hw : isAbsolute w = true) :
    isAbsolute (absolutize w p) = true ∧
      (isAbsolute p = true → absolutize w p = p) ∧
      (isAbsolute p = false → absolutize w p = pushPath w p) := by
  refine ⟨absolutize_abs p hw, ?_, ?_⟩
  · intro hp
    simp [absolutize, hp]
  · intro hp
    simp [absolutize, hp]

/-- C4 witness: the amended statement at the concrete working directory /tmp
and relative input a.txt. -/
theorem claim_C4_witness :
    isAbsolute (absolutize "/tmp" "a.txt") = true ∧
      (isAbsolute "a.txt" = true → absolutize "/tmp" "a.txt" = "a.txt") ∧
      (isAbsolute "a.txt" = false →
        absolutize "/tmp" "a.txt" = pushPath "/tmp" "a.txt") :=
  claim_C4_absolutize "/tmp" "a.txt" (by decide)

/-- C6 counterexample: at the root path the directory formatter returns the
empty string, which does not end with a slash, and a path already carrying
two trailing slashes keeps both, so the result does not end in exactly one
slash. -/
theorem claim_C6_counterexample :
    fmt_path "/" true = "" ∧ endsWithChar '/' "" = false ∧
      fmt_path "a//" true = "a//" ∧
      endsWithChar '/' (String.mk ("a//".data.dropLast)) = true := by
  decide

/-- C6 amended: for every path other than the root the directory formatter
returns a string ending with at least one slash, and the root formats to the
empty string. -/
theorem claim_C6_fmt_path_slash :
    (∀ p, pathEq p "/" = false → endsWithChar '/' (fmt_path p true) = true) ∧
      fmt_path "/" true = "" := by
  constructor
  · intro p h
    simp only [fmt_path, h, Bool.false_eq_true, if_false]
    exact endsWith_if_append _
  · decide

/-- C6 witness: the amended statement at the concrete relative path tmp. -/
theorem claim_C6_witness : endsWithChar '/' (fmt_path "tmp" true) = true :=
  claim_C6_fmt_path_slash.1 "tmp" (by decide)

/-- C5 counterexample: stripping the prefix a from the key ab leaves the
single slash-free segment b, so the claimed characterization accepts the
pair, but the filter rejects it (the prefix does not end at a segment
boundary). -/
theorem claim_C5_counterexample :
    specDirectChild "ab" "a" = true ∧ is_direct_child "ab" "a" = false := by
  decide

/-- C8 counterexample: for the key a// the last non-empty segment is a, but
the extractor returns the empty token before the final slash. -/
theorem claim_C8_counterexample :
    specLastNonEmptySeg "a//" = "a" ∧ object_name "a//" = "" := by
  decide

/-- C5 amended: the four spec examples hold, and for every parent prefix
that is empty or ends at a segment boundary (a trailing slash) and every
non-empty slash-free name, both acceptance forms prefix + name and
prefix + name + "/" are accepted as direct children; a prefix stopping in
the middle of a segment is rejected even when stripping it leaves one
segment. -/
theorem claim_C5_direct_child (parent name : String)
    (h1 : name ≠ "") (h2 : ∀ c ∈ name.data, c ≠ '/')
    (h3 : parent = "" ∨ endsWithChar '/' parent = true) :
    is_direct_child (parent ++ name) parent = true ∧
      is_direct_child (parent ++ name ++ "/") parent = true ∧
      is_direct_child "pippo/" "" = true ∧
      is_direct_child "pippo/sottocartella/" "" = false ∧
      is_direct_child "pippo/sottocartella/" "pippo/" = true ∧
      is_direct_child "pippo/sottocartella/" "pippo" = false := by
  have h2' : '/' ∉ name.data := fun hm => h2 '/' hm rfl
  have h1' : name.data ≠ [] := (ne_empty_iff_data name).mp h1
  rcases object_name_append parent name h1' h2 h3 with ⟨ha, hb⟩
  refine ⟨?_, ?_, by decide, by decide, by decide, by decide⟩
  · simp [is_direct_child, ha]
  · simp [is_direct_child, hb]

/-- C5 witness: both acceptance forms at the concrete parent pippo/ and name
sottocartella. -/
theorem claim_C5_witness :
    is_direct_child ("pippo/" ++ "sottocartella") "pippo/" = true ∧
      is_direct_child ("pippo/" ++ "sottocartella" ++ "/") "pippo/" = true :=
  ⟨(claim_C5_direct_child "pippo/" "sottocartella" (by decide) (by decide)
      (Or.inr (by decide))).1,
    (claim_C5_direct_child "pippo/" "sottocartella" (by decide) (by decide)
      (Or.inr (by decide))).2.1⟩

/-- C8 amended: the three spec examples hold, and for every key formed from a
segment-boundary prefix and a non-empty slash-free segment, the extracted
name is that segment, both for the bare key and for the key with one
trailing slash (for degenerate keys ending in a double slash the extractor
returns the empty token before the final slash instead of the last non-empty
segment). -/
theorem claim_C8_object_name (parent name : String)
    (h1 : name ≠ "") (h2 : ∀ c ∈ name.data, c ≠ '/')
    (h3 : parent = "" ∨ endsWithChar '/' parent = true) :
    object_name (parent ++ name) = name ∧
      object_name (parent ++ name ++ "/") = name ∧
      object_name "pippo/sottocartella/chiedo.gif" = "chiedo.gif" ∧
      object_name "pippo/sottocartella/" = "sottocartella" ∧
      object_name "pippo/" = "pippo" := by
  rcases object_name_append parent name ((ne_empty_iff_data name).mp h1) h2 h3
    with ⟨ha, hb⟩
  exact ⟨ha, hb, by decide, by decide, by decide⟩

/-- C8 witness: the extraction at the empty prefix and the name pippo. -/
theorem claim_C8_witness :
    object_name ("" ++ "pippo") = "pippo" ∧
      object_name ("" ++ "pippo" ++ "/") = "pippo" :=
  ⟨(claim_C8_object_name "" "pippo" (by decide) (by decide)
      (Or.inl rfl)).1,
    (claim_C8_object_name "" "pippo" (by decide) (by decide)
      (Or.inl rfl)).2.1⟩

/-- C10: on a connected S3 driver with an absolute working directory and a
non-root path, remove_file deletes exactly the directory-form key of the
resolved path: that key ends with a slash, it is the key remove_dir deletes
whenever remove_dir succeeds, and it differs from the file-form key. -/
theorem claim_C10_remove_file_dir_key (s : AwsS3Fs) (b : Bucket) (p : String)
    (hb : s.bucket = some b) (hw : isAbsolute s.wrkdir = true)
    (_hr : resolve s.wrkdir p ≠ "") :
    s.remove_file p =
        (.ok (), { s with bucket := some (b.delete_object (fmt_path (resolve s.wrkdir p) true)) }) ∧
      endsWithChar '/' (fmt_path (resolve s.wrkdir p) true) = true ∧
      fmt_path (resolve s.wrkdir p) true ≠ fmt_path (resolve s.wrkdir p) false ∧
      (∀ res s', s.remove_dir p = (res, s') → res = .ok () →
        s' = { s with bucket := some (b.delete_object (fmt_path (resolve s.wrkdir p) true)) }) := by
  rcases resolve_keeps s.wrkdir p hw with ⟨hrel, hslash⟩
  rcases fmt_path_rel (resolve s.wrkdir p) hrel hslash with ⟨hf1, hf2⟩
  refine ⟨?_, ?_, ?_, ?_⟩
  · unfold AwsS3Fs.remove_file
    rw [hb]
  · rw [hf1]
    exact endsWithChar_append_slash _
  · rw [hf1, hf2]
    exact append_slash_ne _
  · intro res s' hrd hok
    unfold AwsS3Fs.remove_dir at hrd
    rw [hb] at hrd
    dsimp only at hrd
    split at hrd
    · injection hrd with hres hs'
      rw [← hres] at hok
      exact absurd hok (by simp)
    · injection hrd with hres hs'
      exact hs'.symm

/-- C10 witness: the conjunction at the concrete connected driver s3demo and
path a.txt. -/
theorem claim_C10_witness :
    s3demo.remove_file "a.txt" =
        (.ok (), { s3demo with bucket := some ((Bucket.mk [⟨"tmp/a.txt", 10⟩]).delete_object (fmt_path (resolve s3demo.wrkdir "a.txt") true)) }) ∧
      endsWithChar '/' (fmt_path (resolve s3demo.wrkdir "a.txt") true) = true ∧
      fmt_path (resolve s3demo.wrkdir "a.txt") true ≠
        fmt_path (resolve s3demo.wrkdir "a.txt") false ∧
      (∀ res s', s3demo.remove_dir "a.txt" = (res, s') → res = .ok () →
        s' = { s3demo with bucket := some ((Bucket.mk [⟨"tmp/a.txt", 10⟩]).delete_object (fmt_path (resolve s3demo.wrkdir "a.txt") true)) }) :=
  claim_C10_remove_file_dir_key s3demo ⟨[⟨"tmp/a.txt", 10⟩]⟩ "a.txt" rfl
    (by decide) (by decide)

theorem typeCharInfo_none (l : List Char)
    (h1 : l ≠ ['-']) (h2 : l ≠ ['l']) (h3 : l ≠ ['d']) :
    typeCharInfo l = none := by
  unfold typeCharInfo
  split <;> simp_all

/-- C7: parse_ls_output maps the two reference lines to the expected file and
directory entries, their mtime falling back to the epoch because the chrono
%b specifier rejects the Italian month name giu in both date formats; any
line the LS_RE pattern does not match yields no entry;
and a successful parse certifies the captured fields, so that a line with
fewer than eight captured fields, a type character other than dash, l or d,
or a permission field shorter than nine characters yields no entry (the
parser is a total function, so no line can make it crash). -/
theorem claim_C7_parse_ls :
    parse_ls_output "/tmp"
        "-rw-r--r-- 1 root root 2056 giu 13 21:11 /tmp/Cargo.toml" =
        .ok (.file
          { name := "Cargo.toml", path := "/tmp/Cargo.toml",
            extension := some "toml",
            metadata :=
              { atime := .epoch, ctime := .epoch, gid := none,
                mode := some (UnixPex.fromU32 0o644),
                mtime := .epoch, size := 2056,
                symlink := none, uid := none } }) ∧
      parse_ls_output "/tmp" "drwxr-xr-x 1 root root 512 giu 13 21:11 docs" =
        .ok (.directory
          { name := "docs", path := "/tmp/docs",
            metadata :=
              { atime := .epoch, ctime := .epoch, gid := none,
                mode := some (UnixPex.fromU32 0o755),
                mtime := .epoch, size := 512,
                symlink := none, uid := none } }) ∧
      (∀ path line, lsMatch line = none →
        parse_ls_output path line = .error ()) ∧
      (∀ path line caps, lsMatch line = some caps →
        (capturesCount caps < 8 ∨
          (caps.g1 ≠ ['-'] ∧ caps.g1 ≠ ['l'] ∧ caps.g1 ≠ ['d']) ∨
          caps.g2.length < 9) →
        parse_ls_output path line = .error ()) := by
  refine ⟨by decide, by decide, ?_, ?_⟩
  · intro path line h
    unfold parse_ls_output
    rw [h]
  · intro path line caps h hbad
    unfold parse_ls_output
    rw [h]
    dsimp only
    have hcnt : ¬capturesCount caps < 8 := by simp [capturesCount]
    rcases hbad with hbad | hbad | hbad
    · exact absurd hbad hcnt
    · rw [if_neg hcnt, typeCharInfo_none caps.g1 hbad.1 hbad.2.1 hbad.2.2]
    · rw [if_neg hcnt]
      cases htc : typeCharInfo caps.g1 with
      | none => rfl
      | some ds =>
        rcases ds with ⟨d, sy⟩
        dsimp only
        rw [if_pos hbad]

/-- C7 witness: a header line the pattern does not match yields no entry. -/
theorem claim_C7_witness :
    lsMatch "total 32" = none ∧
      parse_ls_output "/tmp" "total 32" = .error () :=
  ⟨by decide, claim_C7_parse_ls.2.2.1 "/tmp" "total 32" (by decide)⟩

/-- C2 counterexample: exec on a freshly constructed, never-connected S3
driver returns UnsupportedFeature, not NotConnected. -/
theorem claim_C2_counterexample :
    ((AwsS3Fs.new "bkt" "eu-central-1").exec "echo 5").1 =
        .error .UnsupportedFeature ∧
      RemoteErrorType.UnsupportedFeature ≠ RemoteErrorType.NotConnected := by
  decide

/-- C2 amended: on a freshly constructed, never-connected driver every
operation the backend supports fails with NotConnected, leaves the state
untouched and involves no remote interaction (the fresh state holds no
session or bucket handle to query), while the operations the backend does
not support (S3: setstat, symlink, copy, mov, exec, append, create, open;
SCP: append) fail with UnsupportedFeature unconditionally. -/
theorem claim_C2_not_connected_guard (bn rg p t c : String) (sz : Nat)
    (md : UnixPex) (m : Metadata) (opts : SshOpts) :
    (AwsS3Fs.new bn rg).pwd = (.error .NotConnected, (AwsS3Fs.new bn rg)) ∧
    (AwsS3Fs.new bn rg).change_dir p = (.error .NotConnected, (AwsS3Fs.new bn rg)) ∧
    (AwsS3Fs.new bn rg).list_dir p = (.error .NotConnected, (AwsS3Fs.new bn rg)) ∧
    (AwsS3Fs.new bn rg).stat p = (.error .NotConnected, (AwsS3Fs.new bn rg)) ∧
    (AwsS3Fs.new bn rg).exists p = (.error .NotConnected, (AwsS3Fs.new bn rg)) ∧
    (AwsS3Fs.new bn rg).remove_file p = (.error .NotConnected, (AwsS3Fs.new bn rg)) ∧
    (AwsS3Fs.new bn rg).remove_dir p = (.error .NotConnected, (AwsS3Fs.new bn rg)) ∧
    (AwsS3Fs.new bn rg).remove_dir_all p = (.error .NotConnected, (AwsS3Fs.new bn rg)) ∧
    (AwsS3Fs.new bn rg).create_dir p md = (.error .NotConnected, (AwsS3Fs.new bn rg)) ∧
    (AwsS3Fs.new bn rg).create_file p sz = (.error .NotConnected, (AwsS3Fs.new bn rg)) ∧
    (AwsS3Fs.new bn rg).open_file p = (.error .NotConnected, (AwsS3Fs.new bn rg)) ∧
    (AwsS3Fs.new bn rg).disconnect = (.error .NotConnected, (AwsS3Fs.new bn rg)) ∧
    (AwsS3Fs.new bn rg).setstat p = (.error .UnsupportedFeature, (AwsS3Fs.new bn rg)) ∧
    (AwsS3Fs.new bn rg).symlink p t = (.error .UnsupportedFeature, (AwsS3Fs.new bn rg)) ∧
    (AwsS3Fs.new bn rg).copy p t = (.error .UnsupportedFeature, (AwsS3Fs.new bn rg)) ∧
    (AwsS3Fs.new bn rg).mov p t = (.error .UnsupportedFeature, (AwsS3Fs.new bn rg)) ∧
    (AwsS3Fs.new bn rg).exec c = (.error .UnsupportedFeature, (AwsS3Fs.new bn rg)) ∧
    (AwsS3Fs.new bn rg).append p = (.error .UnsupportedFeature, (AwsS3Fs.new bn rg)) ∧
    (AwsS3Fs.new bn rg).create p = (.error .UnsupportedFeature, (AwsS3Fs.new bn rg)) ∧
    (AwsS3Fs.new bn rg).open p = (.error .UnsupportedFeature, (AwsS3Fs.new bn rg)) ∧
    (ScpFs.new opts).pwd = (.error .NotConnected, (ScpFs.new opts)) ∧
    (ScpFs.new opts).change_dir p = (.error .NotConnected, (ScpFs.new opts)) ∧
    (ScpFs.new opts).list_dir p = (.error .NotConnected, (ScpFs.new opts)) ∧
    (ScpFs.new opts).stat p = (.error .NotConnected, (ScpFs.new opts)) ∧
    (ScpFs.new opts).setstat p m = (.error .NotConnected, (ScpFs.new opts)) ∧
    (ScpFs.new opts).exists p = (.error .NotConnected, (ScpFs.new opts)) ∧
    (ScpFs.new opts).remove_file p = (.error .NotConnected, (ScpFs.new opts)) ∧
    (ScpFs.new opts).remove_dir p = (.error .NotConnected, (ScpFs.new opts)) ∧
    (ScpFs.new opts).remove_dir_all p = (.error .NotConnected, (ScpFs.new opts)) ∧
    (ScpFs.new opts).create_dir p md = (.error .NotConnected, (ScpFs.new opts)) ∧
    (ScpFs.new opts).symlink p t = (.error .NotConnected, (ScpFs.new opts)) ∧
    (ScpFs.new opts).copy p t = (.error .NotConnected, (ScpFs.new opts)) ∧
    (ScpFs.new opts).mov p t = (.error .NotConnected, (ScpFs.new opts)) ∧
    (ScpFs.new opts).exec c = (.error .NotConnected, (ScpFs.new opts)) ∧
    (ScpFs.new opts).create p m = (.error .NotConnected, (ScpFs.new opts)) ∧
    (ScpFs.new opts).open p = (.error .NotConnected, (ScpFs.new opts)) ∧
    (ScpFs.new opts).disconnect = (.error .NotConnected, (ScpFs.new opts)) ∧
    (ScpFs.new opts).append p = (.error .UnsupportedFeature, (ScpFs.new opts)) := by
  exact ⟨rfl, rfl, rfl, rfl, rfl, rfl, rfl, rfl, rfl, rfl, rfl, rfl, rfl, rfl, rfl, rfl, rfl, rfl, rfl, rfl, rfl, rfl, rfl, rfl, rfl, rfl, rfl, rfl, rfl, rfl, rfl, rfl, rfl, rfl, rfl, rfl, rfl, rfl⟩

-- per-operation state lemmas for the working-directory invariant

theorem s3_stat_snd (s : AwsS3Fs) (p : String) : (s.stat p).2 = s := by
  unfold AwsS3Fs.stat
  cases s.bucket with
  | none => rfl
  | some b =>
    dsimp only
    cases AwsS3Fs.stat_object b (resolve s.wrkdir p) <;> rfl

theorem s3_exists_snd (s : AwsS3Fs) (p : String) : (s.exists p).2 = s := by
  unfold AwsS3Fs.exists
  rcases hst : s.stat p with ⟨res, s2⟩
  have h2 : s2 = s := by
    have hs := s3_stat_snd s p
    rw [hst] at hs
    exact hs
  subst h2
  cases res with
  | ok v => rfl
  | error e => cases e <;> rfl

theorem s3_remove_file_wrkdir (s : AwsS3Fs) (p : String) :
    (s.remove_file p).2.wrkdir = s.wrkdir := by
  unfold AwsS3Fs.remove_file
  cases s.bucket <;> rfl

theorem s3_remove_dir_wrkdir (s : AwsS3Fs) (p : String) :
    (s.remove_dir p).2.wrkdir = s.wrkdir := by
  unfold AwsS3Fs.remove_dir
  cases s.bucket with
  | none => rfl
  | some b =>
    dsimp only
    split <;> rfl

theorem s3_remove_dir_all_wrkdir (s : AwsS3Fs) (p : String) :
    (s.remove_dir_all p).2.wrkdir = s.wrkdir := by
  unfold AwsS3Fs.remove_dir_all
  rcases hrd : s.remove_dir p with ⟨res, s2⟩
  have h2 : s2.wrkdir = s.wrkdir := by
    have hs := s3_remove_dir_wrkdir s p
    rw [hrd] at hs
    exact hs
  cases res with
  | ok v => exact h2
  | error e =>
    dsimp only
    rw [s3_remove_file_wrkdir s2 p]
    exact h2

theorem s3_change_dir_cases (s : AwsS3Fs) (d : String) :
    (∃ v, (s.change_dir d).1 = .ok v) ∨ (s.change_dir d).2 = s := by
  unfold AwsS3Fs.change_dir
  cases s.bucket with
  | none => exact Or.inr rfl
  | some b =>
    dsimp only
    by_cases hroot : pathEq d "/" = true
    · rw [if_pos hroot]
      exact Or.inl ⟨d, rfl⟩
    · rw [if_neg hroot]
      cases AwsS3Fs.stat_object b (fmt_path (resolve s.wrkdir d) true) with
      | ok o => exact Or.inl ⟨_, rfl⟩
      | error e => exact Or.inr rfl

theorem s3Step_wrkdir (op : S3Op) (s : AwsS3Fs)
    (h : s3CdSuccess op s = false) : (s3Step op s).wrkdir = s.wrkdir := by
  cases op with
  | connectOp r => rfl
  | disconnectOp =>
    show s.disconnect.2.wrkdir = s.wrkdir
    unfold AwsS3Fs.disconnect
    cases s.bucket <;> rfl
  | pwdOp =>
    show s.pwd.2.wrkdir = s.wrkdir
    unfold AwsS3Fs.pwd
    cases s.bucket <;> rfl
  | changeDirOp d =>
    rcases s3_change_dir_cases s d with ⟨v, hv⟩ | h2
    · exfalso
      simp only [s3CdSuccess] at h
      rw [hv] at h
      simp at h
    · show (s.change_dir d).2.wrkdir = s.wrkdir
      rw [h2]
  | listDirOp p =>
    show (s.list_dir p).2.wrkdir = s.wrkdir
    unfold AwsS3Fs.list_dir
    cases s.bucket <;> rfl
  | statOp p =>
    show (s.stat p).2.wrkdir = s.wrkdir
    rw [s3_stat_snd]
  | setstatOp p => rfl
  | existsOp p =>
    show (s.exists p).2.wrkdir = s.wrkdir
    rw [s3_exists_snd]
  | removeFileOp p => exact s3_remove_file_wrkdir s p
  | removeDirOp p => exact s3_remove_dir_wrkdir s p
  | removeDirAllOp p => exact s3_remove_dir_all_wrkdir s p
  | createDirOp p m =>
    show (s.create_dir p m).2.wrkdir = s.wrkdir
    unfold AwsS3Fs.create_dir
    cases s.bucket with
    | none => rfl
    | some b =>
      dsimp only
      cases AwsS3Fs.stat_object b (fmt_path (resolve s.wrkdir p) true) <;> rfl
  | symlinkOp p t => rfl
  | copyOp a c => rfl
  | movOp a c => rfl
  | execOp c => rfl
  | appendOp p => rfl
  | createOp p => rfl
  | openOp p => rfl
  | createFileOp p sz =>
    show (s.create_file p sz).2.wrkdir = s.wrkdir
    unfold AwsS3Fs.create_file
    cases s.bucket <;> rfl
  | openFileOp p =>
    show (s.open_file p).2.wrkdir = s.wrkdir
    unfold AwsS3Fs.open_file
    cases s.bucket with
    | none => rfl
    | some b =>
      dsimp only
      split <;> rfl

theorem s3_run_wrkdir (ops : List S3Op) (s : AwsS3Fs)
    (h : s3NoCdTrace ops s) : (s3Run ops s).wrkdir = s.wrkdir := by
  induction ops generalizing s with
  | nil => rfl
  | cons op rest ih =>
    rcases h with ⟨h1, h2⟩
    calc (s3Run (op :: rest) s).wrkdir
        = (s3Run rest (s3Step op s)).wrkdir := rfl
      _ = (s3Step op s).wrkdir := ih (s3Step op s) h2
      _ = s.wrkdir := s3Step_wrkdir op s h1

theorem scp_pwd_snd (s : ScpFs) : s.pwd.2 = s := by
  unfold ScpFs.pwd
  cases s.sess <;> rfl

theorem scp_exists_snd (s : ScpFs) (p : String) : (s.exists p).2 = s := by
  unfold ScpFs.exists
  cases s.sess with
  | none => rfl
  | some r =>
    dsimp only
    repeat' split
    all_goals rfl

theorem scp_list_dir_snd (s : ScpFs) (p : String) : (s.list_dir p).2 = s := by
  unfold ScpFs.list_dir
  cases s.sess with
  | none => rfl
  | some r =>
    dsimp only
    repeat' split
    all_goals rfl

theorem scp_stat_snd (s : ScpFs) (p : String) : (s.stat p).2 = s := by
  unfold ScpFs.stat
  cases s.sess with
  | none => rfl
  | some r =>
    dsimp only
    repeat' split
    all_goals rfl

theorem scp_setstat_snd (s : ScpFs) (p : String) (m : Metadata) :
    (s.setstat p m).2 = s := by
  unfold ScpFs.setstat
  cases s.sess with
  | none => rfl
  | some r =>
    dsimp only
    repeat' split
    all_goals rfl

theorem scp_remove_file_snd (s : ScpFs) (p : String) :
    (s.remove_file p).2 = s := by
  unfold ScpFs.remove_file
  cases s.sess with
  | none => rfl
  | some r =>
    dsimp only
    repeat' split
    all_goals rfl

theorem scp_remove_dir_snd (s : ScpFs) (p : String) :
    (s.remove_dir p).2 = s := by
  unfold ScpFs.remove_dir
  cases s.sess with
  | none => rfl
  | some r =>
    dsimp only
    repeat' split
    all_goals rfl

theorem scp_remove_dir_all_snd (s : ScpFs) (p : String) :
    (s.remove_dir_all p).2 = s := by
  unfold ScpFs.remove_dir_all
  cases s.sess with
  | none => rfl
  | some r =>
    dsimp only
    repeat' split
    all_goals rfl

theorem scp_create_dir_snd (s : ScpFs) (p : String) (m : UnixPex) :
    (s.create_dir p m).2 = s := by
  unfold ScpFs.create_dir
  cases s.sess with
  | none => rfl
  | some r =>
    dsimp only
    repeat' split
    all_goals rfl

theorem scp_symlink_snd (s : ScpFs) (p t : String) : (s.symlink p t).2 = s := by
  unfold ScpFs.symlink
  cases s.sess with
  | none => rfl
  | some r =>
    dsimp only
    repeat' split
    all_goals rfl

theorem scp_copy_snd (s : ScpFs) (a b : String) : (s.copy a b).2 = s := by
  unfold ScpFs.copy
  cases s.sess with
  | none => rfl
  | some r =>
    dsimp only
    repeat' split
    all_goals rfl

theorem scp_mov_snd (s : ScpFs) (a b : String) : (s.mov a b).2 = s := by
  unfold ScpFs.mov
  cases s.sess with
  | none => rfl
  | some r =>
    dsimp only
    repeat' split
    all_goals rfl

theorem scp_exec_snd (s : ScpFs) (c : String) : (s.exec c).2 = s := by
  unfold ScpFs.exec
  cases s.sess with
  | none => rfl
  | some r =>
    dsimp only
    repeat' split
    all_goals rfl

theorem scp_create_snd (s : ScpFs) (p : String) (m : Metadata) :
    (s.create p m).2 = s := by
  unfold ScpFs.create
  cases s.sess with
  | none => rfl
  | some r =>
    dsimp only
    repeat' split
    all_goals rfl

theorem scp_open_snd (s : ScpFs) (p : String) : (s.open p).2 = s := by
  unfold ScpFs.open
  cases s.sess with
  | none => rfl
  | some r =>
    dsimp only
    repeat' split
    all_goals rfl

theorem scp_connect_cases (s : ScpFs) :
    (∃ v, s.connect.1 = .ok v) ∨ s.connect.2 = s := by
  unfold ScpFs.connect
  cases s.opts.connect_result with
  | none => exact Or.inr rfl
  | some r =>
    dsimp only
    cases perform_shell_cmd r "pwd" with
    | ok out => exact Or.inl ⟨_, rfl⟩
    | error e => exact Or.inr rfl

theorem scp_change_dir_cases (s : ScpFs) (d : String) :
    (∃ v, (s.change_dir d).1 = .ok v) ∨ (s.change_dir d).2 = s := by
  unfold ScpFs.change_dir
  cases s.sess with
  | none => exact Or.inr rfl
  | some r =>
    dsimp only
    cases perform_shell_cmd r
        ("cd \"" ++ absolutize s.wrkdir d ++ "\"; echo $?; pwd") with
    | ok out =>
      dsimp only
      split
      · exact Or.inl ⟨_, rfl⟩
      · exact Or.inr rfl
    | error e => exact Or.inr rfl

theorem scpStep_wrkdir (op : ScpOp) (s : ScpFs)
    (h1 : scpCdSuccess op s = false)
    (h2 : scpConnectSuccess op s = false) :
    (scpStep op s).wrkdir = s.wrkdir := by
  cases op with
  | connectOp =>
    rcases scp_connect_cases s with ⟨v, hv⟩ | hst
    · exfalso
      simp only [scpConnectSuccess] at h2
      rw [hv] at h2
      simp at h2
    · show s.connect.2.wrkdir = s.wrkdir
      rw [hst]
  | disconnectOp =>
    show s.disconnect.2.wrkdir = s.wrkdir
    unfold ScpFs.disconnect
    cases s.session with
    | none => rfl
    | some r =>
      dsimp only
      split <;> rfl
  | pwdOp =>
    show s.pwd.2.wrkdir = s.wrkdir
    rw [scp_pwd_snd]
  | changeDirOp d =>
    rcases scp_change_dir_cases s d with ⟨v, hv⟩ | hst
    · exfalso
      simp only [scpCdSuccess] at h1
      rw [hv] at h1
      simp at h1
    · show (s.change_dir d).2.wrkdir = s.wrkdir
      rw [hst]
  | listDirOp p =>
    show (s.list_dir p).2.wrkdir = s.wrkdir
    rw [scp_list_dir_snd]
  | statOp p =>
    show (s.stat p).2.wrkdir = s.wrkdir
    rw [scp_stat_snd]
  | setstatOp p m =>
    show (s.setstat p m).2.wrkdir = s.wrkdir
    rw [scp_setstat_snd]
  | existsOp p =>
    show (s.exists p).2.wrkdir = s.wrkdir
    rw [scp_exists_snd]
  | removeFileOp p =>
    show (s.remove_file p).2.wrkdir = s.wrkdir
    rw [scp_remove_file_snd]
  | removeDirOp p =>
    show (s.remove_dir p).2.wrkdir = s.wrkdir
    rw [scp_remove_dir_snd]
  | removeDirAllOp p =>
    show (s.remove_dir_all p).2.wrkdir = s.wrkdir
    rw [scp_remove_dir_all_snd]
  | createDirOp p m =>
    show (s.create_dir p m).2.wrkdir = s.wrkdir
    rw [scp_create_dir_snd]
  | symlinkOp p t =>
    show (s.symlink p t).2.wrkdir = s.wrkdir
    rw [scp_symlink_snd]
  | copyOp a b =>
    show (s.copy a b).2.wrkdir = s.wrkdir
    rw [scp_copy_snd]
  | movOp a b =>
    show (s.mov a b).2.wrkdir = s.wrkdir
    rw [scp_mov_snd]
  | execOp c =>
    show (s.exec c).2.wrkdir = s.wrkdir
    rw [scp_exec_snd]
  | appendOp p => rfl
  | createOp p m =>
    show (s.create p m).2.wrkdir = s.wrkdir
    rw [scp_create_snd]
  | openOp p =>
    show (s.open p).2.wrkdir = s.wrkdir
    rw [scp_open_snd]

theorem scp_run_wrkdir (ops : List ScpOp) (s : ScpFs)
    (h : scpNoCdTrace ops s) : (scpRun ops s).wrkdir = s.wrkdir := by
  induction ops generalizing s with
  | nil => rfl
  | cons op rest ih =>
    rcases h with ⟨h1, h2, h3⟩
    calc (scpRun (op :: rest) s).wrkdir
        = (scpRun rest (scpStep op s)).wrkdir := rfl
      _ = (scpStep op s).wrkdir := ih (scpStep op s) h3
      _ = s.wrkdir := scpStep_wrkdir op s h1 h2

/-- C3 counterexample: an SCP driver connected to a remote whose pwd reports
/home/omar runs the one-operation trace connect, which contains no change_dir
at all, yet afterwards the working directory is /home/omar rather than /. -/
theorem claim_C3_counterexample :
    (ScpFs.new ⟨some demoRemote⟩).wrkdir = "/" ∧
      (scpRun [ScpOp.connectOp] (ScpFs.new ⟨some demoRemote⟩)).wrkdir =
        "/home/omar" ∧
      ("/home/omar" : String) ≠ "/" := by
  refine ⟨rfl, by decide, by decide⟩

/-- C3 amended: wrkdir is / at construction for both drivers; for the S3
driver it is mutated only by a successful change_dir, and for the SCP driver
only by a successful change_dir or a successful connect (which initializes
it to the remote's reported working directory), so any trace without such
successes leaves it at /. -/
theorem claim_C3_wrkdir_invariant (bn rg : String) (opts : SshOpts)
    (s3ops : List S3Op) (scpops : List ScpOp)
    (h1 : s3NoCdTrace s3ops (AwsS3Fs.new bn rg))
    (h2 : scpNoCdTrace scpops (ScpFs.new opts)) :
    (AwsS3Fs.new bn rg).wrkdir = "/" ∧ (ScpFs.new opts).wrkdir = "/" ∧
      (s3Run s3ops (AwsS3Fs.new bn rg)).wrkdir = "/" ∧
      (scpRun scpops (ScpFs.new opts)).wrkdir = "/" := by
  refine ⟨rfl, rfl, ?_, ?_⟩
  · rw [s3_run_wrkdir _ _ h1]
    rfl
  · rw [scp_run_wrkdir _ _ h2]
    rfl

/-- C3 witness: a one-operation pwd trace on each fresh driver leaves the
working directory at /. -/
theorem claim_C3_witness :
    (s3Run [S3Op.pwdOp] (AwsS3Fs.new "bkt" "eu-central-1")).wrkdir = "/" ∧
      (scpRun [ScpOp.pwdOp] (ScpFs.new ⟨none⟩)).wrkdir = "/" :=
  ⟨(claim_C3_wrkdir_invariant "bkt" "eu-central-1" ⟨none⟩ [S3Op.pwdOp]
      [ScpOp.pwdOp] ⟨rfl, trivial⟩ ⟨rfl, rfl, trivial⟩).2.2.1,
    (claim_C3_wrkdir_invariant "bkt" "eu-central-1" ⟨none⟩ [S3Op.pwdOp]
      [ScpOp.pwdOp] ⟨rfl, trivial⟩ ⟨rfl, rfl, trivial⟩).2.2.2⟩

end Rfs
